import Mathlib

/-!
Verification development for the Busta_IM stock-and-order consistency engine
(`backend/inventory/models.py`, `backend/production/models.py`,
`backend/purchasing/models.py`).

Modelling conventions:
* All physical quantities in the source are Django `DecimalField`s with
  `decimal_places=3`; we model them as rationals (`ℚ`).  Every stored
  quantity is an integer multiple of `1/1000`.
* `Decimal.quantize(Decimal("0.001"))` (Python's default `ROUND_HALF_EVEN`)
  is modelled by `quantize3` below.
* A database transaction that aborts on a raised `ValidationError`/`ValueError`
  is modelled by functions returning `Except`: on `.error` no state is
  returned, i.e. the caller's state is untouched.
* The shared mutable state is `EngineState`: the `current_stock` column of the
  `RawMaterial` table (a total function from material id, foreign-key
  integrity guarantees every referenced id exists) plus the append-only
  `InventoryLedger` table (a list, in insertion order).
* Textual fields (names, reasons, units) and timestamps are outside the
  claims and are omitted from ledger rows; actor stamps are modelled as
  `Option Nat` user ids.
-/

/-- `InventoryLedger.TxnType` from `backend/inventory/models.py`. -/
inductive TxnType where
  | IN
  | OUT
  | ADJUST
deriving DecidableEq, Repr

/-- One `InventoryLedger` row (`backend/inventory/models.py`), textual
fields and timestamps omitted. -/
structure LedgerEntry where
  materialId : Nat
  txnType : TxnType
  quantity : ℚ
  referenceType : String
  referenceId : Nat
deriving DecidableEq, Repr

/-- The signed stock movement recorded by a ledger row (`IN` credits,
`OUT` debits; `ADJUST` is never produced by the modelled operations). -/
def entryDelta (e : LedgerEntry) : ℚ :=
  match e.txnType with
  | .IN => e.quantity
  | .OUT => -e.quantity
  | .ADJUST => 0

/-- Net signed ledger movement for one material over a list of rows. -/
def ledgerDelta (entries : List LedgerEntry) (m : Nat) : ℚ :=
  ((entries.filter (fun e => decide (e.materialId = m))).map entryDelta).sum

/-- The mutable store shared by all lifecycle operations: `current_stock`
per material id, plus the `InventoryLedger` table. -/
structure EngineState where
  stocks : Nat → ℚ
  ledger : List LedgerEntry

/-- Pointwise update of one material's stock (the `save(update_fields=
["current_stock"])` write). -/
def setStock (st : Nat → ℚ) (id : Nat) (v : ℚ) : Nat → ℚ :=
  fun m => if m = id then v else st m

/-- Add `d` to material `id`'s stock (the `material.current_stock ± qty`
pattern in the source). -/
def updStock (st : Nat → ℚ) (id : Nat) (d : ℚ) : Nat → ℚ :=
  setStock st id (st id + d)

/-- Round-half-even to an integer, Python `Decimal`'s default rounding. -/
def halfEvenRound (q : ℚ) : ℤ :=
  let f := q - ⌊q⌋
  if f < 1/2 then ⌊q⌋
  else if 1/2 < f then ⌊q⌋ + 1
  else if ⌊q⌋ % 2 = 0 then ⌊q⌋ else ⌊q⌋ + 1

/-- `Decimal.quantize(Decimal("0.001"))`: round to 3 decimal places with
banker's rounding. -/
def quantize3 (q : ℚ) : ℚ :=
  (halfEvenRound (q * 1000) : ℚ) / 1000

/-! ### Inventory: `adjust_stock` (`backend/inventory/models.py`) -/

/-- The two `ValueError`s raised by `adjust_stock`. -/
inductive AdjustError where
  | zeroDelta
  | insufficientStock
deriving DecidableEq, Repr

/-- `adjust_stock(material, delta, reason, created_by)` from
`backend/inventory/models.py`: rejects `delta == 0`; computes
`new_stock = current_stock + delta`; rejects a negative result; otherwise
persists the new stock and appends one ledger row (`IN` if `delta > 0`,
else `OUT`, quantity `abs(delta)`, reference `manual_adjustment`).
Returns the new balance alongside the updated state. -/
def adjust_stock (s : EngineState) (materialId : Nat) (delta : ℚ) :
    Except AdjustError (EngineState × ℚ) :=
  if delta = 0 then .error .zeroDelta
  else
    let newStock := s.stocks materialId + delta
    if newStock < 0 then .error .insufficientStock
    else
      .ok (⟨setStock s.stocks materialId newStock,
            s.ledger ++ [{ materialId := materialId,
                           txnType := if 0 < delta then .IN else .OUT,
                           quantity := |delta|,
                           referenceType := "manual_adjustment",
                           referenceId := materialId }]⟩,
           newStock)

/-! ### Production (`backend/production/models.py`) -/

/-- One `BOMItem` row: material reference and `qty_per_unit`
(a positive 3-decimal quantity, unique per `(product, material)`). -/
structure BOMItem where
  materialId : Nat
  qtyPerUnit : ℚ
deriving DecidableEq, Repr

/-- One `ProductionConsumption` row: the immutable per-order snapshot of a
material requirement. -/
structure ConsumptionLine where
  materialId : Nat
  requiredQty : ℚ
deriving DecidableEq, Repr

/-- `ProductionOrder.Status`. -/
inductive ProdStatus where
  | awaitingRmRelease
  | planned
  | inProgress
  | completed
  | cancelled
deriving DecidableEq, Repr

/-- A `ProductionOrder` row together with its owned `ProductionConsumption`
rows (`consumptions` related manager). Completion-only fields are omitted. -/
structure ProductionOrder where
  id : Nat
  productId : Nat
  quantity : Nat
  plannedQty : ℚ
  rawMaterialReleased : Bool
  status : ProdStatus
  consumptions : List ConsumptionLine
deriving DecidableEq, Repr

/-- One entry of the `shortages` message list built by the stock checks:
the material, the required quantity and the available balance. -/
structure Shortage where
  materialId : Nat
  required : ℚ
  available : ℚ
deriving DecidableEq, Repr

/-- The `ValidationError`s raised by the production lifecycle functions,
one constructor per distinct raise site relevant here. -/
inductive ProdError where
  | noBillOfMaterials
  | insufficientStock (shortages : List Shortage)
  | notAwaitingRelease
  | alreadyReleased
  | noConsumptions
  | insufficientStockForRelease (shortages : List Shortage)
  | alreadyCancelled
  | completedCannotCancel
deriving DecidableEq, Repr

/-- `(item.qty_per_unit * Decimal(quantity)).quantize(Decimal("0.001"))`,
the per-line requirement used by both production creation paths. -/
def requiredQty (item : BOMItem) (quantity : Nat) : ℚ :=
  quantize3 (item.qtyPerUnit * quantity)

/-- The `OUT` ledger row written for one requirement of production order
`orderId`. -/
def prodOutEntry (orderId : Nat) (materialId : Nat) (qty : ℚ) : LedgerEntry :=
  { materialId := materialId, txnType := .OUT, quantity := qty,
    referenceType := "production_order", referenceId := orderId }

/-- The `shortages` list accumulated by
`create_production_order_and_deduct_stock`: one entry per BOM line whose
material balance is below its requirement, in BOM order. -/
def immediateShortages (s : EngineState) (bom : List BOMItem) (quantity : Nat) :
    List Shortage :=
  bom.filterMap (fun item =>
    if s.stocks item.materialId < requiredQty item quantity then
      some ⟨item.materialId, requiredQty item quantity, s.stocks item.materialId⟩
    else none)

/-- `create_production_order_and_deduct_stock(product, quantity, notes,
created_by)`: fails if the BOM is empty; computes each line's requirement;
collects every shortage (`current_stock < required`) and fails with
`InsufficientStock` listing all of them; otherwise creates the order in
`PLANNED` with `raw_material_released=True`, writes one consumption row and
one `OUT` ledger row per BOM line and deducts each requirement from the
material's stock.  `orderId` stands for the database-assigned primary key. -/
def create_production_order_and_deduct_stock (s : EngineState)
    (bom : List BOMItem) (productId : Nat) (quantity : Nat) (orderId : Nat) :
    Except ProdError (EngineState × ProductionOrder) :=
  if bom = [] then .error .noBillOfMaterials
  else if immediateShortages s bom quantity = [] then
    .ok (⟨bom.foldl
            (fun st item => updStock st item.materialId (-(requiredQty item quantity)))
            s.stocks,
          s.ledger ++ bom.map
            (fun item => prodOutEntry orderId item.materialId (requiredQty item quantity))⟩,
         { id := orderId, productId := productId, quantity := quantity,
           plannedQty := quantize3 (quantity : ℚ),
           rawMaterialReleased := true, status := .planned,
           consumptions := bom.map
             (fun item => ⟨item.materialId, requiredQty item quantity⟩) })
  else .error (.insufficientStock (immediateShortages s bom quantity))

/-- `create_production_order_with_rm_request(product, quantity, notes,
created_by)`: fails if the BOM is empty; otherwise creates the order in
`AWAITING_RM_RELEASE` with `raw_material_released=False` and persists a
consumption-line snapshot per BOM line.  It neither reads nor writes any
material stock or ledger row, so the engine state is returned untouched. -/
def create_production_order_with_rm_request (s : EngineState)
    (bom : List BOMItem) (productId : Nat) (quantity : Nat) (orderId : Nat) :
    Except ProdError (EngineState × ProductionOrder) :=
  if bom = [] then .error .noBillOfMaterials
  else
    .ok (s,
      { id := orderId, productId := productId, quantity := quantity,
        plannedQty := quantize3 (quantity : ℚ),
        rawMaterialReleased := false, status := .awaitingRmRelease,
        consumptions := bom.map
          (fun item => ⟨item.materialId, requiredQty item quantity⟩) })

/-- The `shortages` list accumulated by
`release_raw_materials_for_production_order`, computed against the *stored*
consumption lines. -/
def releaseShortages (s : EngineState) (consumptions : List ConsumptionLine) :
    List Shortage :=
  consumptions.filterMap (fun c =>
    if s.stocks c.materialId < c.requiredQty then
      some ⟨c.materialId, c.requiredQty, s.stocks c.materialId⟩
    else none)

/-- `release_raw_materials_for_production_order(production_order,
released_by)`: guards status `AWAITING_RM_RELEASE` and
`raw_material_released=False` and a non-empty consumption set; re-checks
stock sufficiency against the *stored* consumption lines, collecting every
shortage; on success deducts each stored quantity, writes one `OUT` ledger
row per line, flips `raw_material_released=True` and moves the order to
`PLANNED`.  (The `materials.get(...)` missing-row branch of the source is
unreachable under foreign-key integrity, which the total `stocks` map
encodes.) -/
def release_raw_materials_for_production_order (s : EngineState)
    (order : ProductionOrder) : Except ProdError (EngineState × ProductionOrder) :=
  if order.status ≠ .awaitingRmRelease then .error .notAwaitingRelease
  else if order.rawMaterialReleased then .error .alreadyReleased
  else if order.consumptions = [] then .error .noConsumptions
  else if releaseShortages s order.consumptions = [] then
    .ok (⟨order.consumptions.foldl
            (fun st c => updStock st c.materialId (-c.requiredQty)) s.stocks,
          s.ledger ++ order.consumptions.map
            (fun c => prodOutEntry order.id c.materialId c.requiredQty)⟩,
         { order with rawMaterialReleased := true, status := .planned })
  else .error (.insufficientStockForRelease (releaseShortages s order.consumptions))

/-- The `IN` ledger row written when cancelling production order `orderId`
reverses one consumption line. -/
def prodRevertEntry (orderId : Nat) (c : ConsumptionLine) : LedgerEntry :=
  { materialId := c.materialId, txnType := .IN, quantity := c.requiredQty,
    referenceType := "production_order", referenceId := orderId }

/-- `cancel_production_order(production_order, cancelled_by)`: rejects
already-cancelled and completed orders; if raw material was released,
credits every consumption line back to its material and writes one `IN`
ledger row per line; finally sets status `CANCELLED`. -/
def cancel_production_order (s : EngineState) (order : ProductionOrder) :
    Except ProdError (EngineState × ProductionOrder) :=
  if order.status = .cancelled then .error .alreadyCancelled
  else if order.status = .completed then .error .completedCannotCancel
  else
    let s' : EngineState :=
      if order.rawMaterialReleased then
        ⟨order.consumptions.foldl
            (fun st c => updStock st c.materialId c.requiredQty) s.stocks,
          s.ledger ++ order.consumptions.map (prodRevertEntry order.id)⟩
      else s
    .ok (s', { order with status := .cancelled })

/-! ### Purchasing (`backend/purchasing/models.py`) -/

/-- `PurchaseOrder.Status` (`OPEN` is spelled `opened` — `open` is a Lean
keyword). -/
inductive PurStatus where
  | opened
  | partlyReceived
  | received
  | cancelled
deriving DecidableEq, Repr

/-- One `PurchaseOrderItem` row; `quantity` is the ordered quantity. -/
structure PurchaseOrderItem where
  id : Nat
  materialId : Nat
  quantity : ℚ
  receivedQuantity : ℚ
deriving DecidableEq, Repr

/-- `PurchaseOrderItem.pending_quantity`: ordered minus received, floored
at zero. -/
def pending_quantity (item : PurchaseOrderItem) : ℚ :=
  if item.quantity - item.receivedQuantity > 0 then
    item.quantity - item.receivedQuantity
  else 0

/-- A `PurchaseOrder` row with its `items`; receiver/canceller stamps are
the actor ids (`received_at`/`cancelled_at` timestamps are outside the
model). -/
structure PurchaseOrder where
  id : Nat
  vendorId : Nat
  status : PurStatus
  items : List PurchaseOrderItem
  receivedBy : Option Nat
  cancelledBy : Option Nat
deriving DecidableEq, Repr

/-- `PurchaseLineInput`: the requested material (with its registered
vendor id, `line.material.vendor_id`) and quantity. -/
structure PurchaseLineInput where
  materialId : Nat
  materialVendorId : Nat
  quantity : ℚ
deriving DecidableEq, Repr

/-- The `ValidationError`s raised by the purchasing lifecycle, one
constructor per distinct raise site relevant here. -/
inductive PurError where
  | noLines
  | nonPositiveQuantity
  | invalidVendor
  | cancelledCannotReceive
  | alreadyFullyReceived
  | noLineItems
  | nothingToReceive
  | noPendingQuantities
  | invalidItem
  | invalidQuantity
  | fullyReceivedCannotCancel
  | alreadyCancelled
  | onlyCancelledCanReopen
  | nothingPending
deriving DecidableEq, Repr

/-- `_derive_status(items)`: `RECEIVED` if every line is fully received,
else `PARTIALLY_RECEIVED` if any line has received anything, else `OPEN`. -/
def _derive_status (items : List PurchaseOrderItem) : PurStatus :=
  if items.all (fun item => decide (item.quantity ≤ item.receivedQuantity)) then
    .received
  else if items.any (fun item => decide (0 < item.receivedQuantity)) then
    .partlyReceived
  else .opened

/-- `quantities.get(item.id, Decimal("0"))` over the (unique-keyed)
quantity map. -/
def lookupQty (quantities : List (Nat × ℚ)) (itemId : Nat) : ℚ :=
  match quantities.find? (fun p => decide (p.1 = itemId)) with
  | some p => p.2
  | none => 0

/-- One iteration of the receive loop: skip the item if its mapped
quantity is ≤ 0, otherwise credit the material's stock, append an `IN`
ledger row and increment the line's `received_quantity`. -/
def receiveStep (quantities : List (Nat × ℚ)) (poId : Nat)
    (acc : EngineState × List PurchaseOrderItem) (item : PurchaseOrderItem) :
    EngineState × List PurchaseOrderItem :=
  let receiveQty := lookupQty quantities item.id
  if receiveQty ≤ 0 then (acc.1, acc.2 ++ [item])
  else
    (⟨updStock acc.1.stocks item.materialId receiveQty,
      acc.1.ledger ++ [{ materialId := item.materialId, txnType := .IN,
                         quantity := receiveQty,
                         referenceType := "purchase_order", referenceId := poId }]⟩,
     acc.2 ++ [{ item with receivedQuantity := item.receivedQuantity + receiveQty }])

/-- The lines accepted by one receive call: those whose mapped quantity is
positive. -/
def acceptedItems (quantities : List (Nat × ℚ)) (items : List PurchaseOrderItem) :
    List PurchaseOrderItem :=
  items.filter (fun i => decide (0 < lookupQty quantities i.id))

/-- The `IN` ledger row written for one accepted line. -/
def receiveInEntry (quantities : List (Nat × ℚ)) (poId : Nat)
    (i : PurchaseOrderItem) : LedgerEntry :=
  { materialId := i.materialId, txnType := .IN,
    quantity := lookupQty quantities i.id,
    referenceType := "purchase_order", referenceId := poId }

/-- A line after one receive call: `received_quantity` incremented when
accepted, untouched otherwise. -/
def updatedItem (quantities : List (Nat × ℚ)) (i : PurchaseOrderItem) :
    PurchaseOrderItem :=
  if 0 < lookupQty quantities i.id then
    { i with receivedQuantity := i.receivedQuantity + lookupQty quantities i.id }
  else i

/-- The tail of `receive_purchase_order` once the quantity map is fixed:
reject unknown item ids, reject any quantity above the line's pending
quantity, then run the receive loop over all items, derive the new status
from the updated lines and stamp the receiver on reaching `RECEIVED`. -/
def continueReceive (s : EngineState) (po : PurchaseOrder) (receivedBy : Nat)
    (quantities : List (Nat × ℚ)) : Except PurError (EngineState × PurchaseOrder) :=
  if quantities.any (fun p => decide (p.1 ∉ po.items.map (fun i => i.id))) then
    .error .invalidItem
  else if quantities.any (fun p =>
      match po.items.find? (fun i => decide (i.id = p.1)) with
      | some item => decide (pending_quantity item < p.2)
      | none => false) then
    .error .invalidQuantity
  else
    let result := po.items.foldl (receiveStep quantities po.id) (s, [])
    let newStatus := _derive_status result.2
    .ok (result.1,
      { po with items := result.2, status := newStatus,
                receivedBy := if newStatus = .received then some receivedBy
                              else po.receivedBy })

/-- The quantity map built by the full-receive shortcut: every line with
pending quantity, mapped to that pending quantity. -/
def pendingMap (po : PurchaseOrder) : List (Nat × ℚ) :=
  (po.items.filter (fun i => decide (0 < pending_quantity i))).map
    (fun i => (i.id, pending_quantity i))

/-- `receive_purchase_order(purchase_order, received_by, line_quantities)`:
guards against `CANCELLED`/`RECEIVED` orders and empty line sets.  An empty
`lineQuantities` models both `None` and `{}` (both falsy in the source): the
full-receive shortcut builds the map from every line with pending quantity.
A given map is filtered down to its positive entries (`if quantity and
quantity > 0`); if nothing remains the call fails.  The rest is
`continueReceive`. -/
def receive_purchase_order (s : EngineState) (po : PurchaseOrder)
    (receivedBy : Nat) (lineQuantities : List (Nat × ℚ)) :
    Except PurError (EngineState × PurchaseOrder) :=
  if po.status = .cancelled then .error .cancelledCannotReceive
  else if po.status = .received then .error .alreadyFullyReceived
  else if po.items = [] then .error .noLineItems
  else if lineQuantities = [] then
    if pendingMap po = [] then
      .error .noPendingQuantities
    else
      continueReceive s po receivedBy (pendingMap po)
  else
    if lineQuantities.filter (fun p => decide (0 < p.2)) = [] then
      .error .nothingToReceive
    else
      continueReceive s po receivedBy
        (lineQuantities.filter (fun p => decide (0 < p.2)))

/-- `cancel_purchase_order(purchase_order, cancelled_by)`: refuses fully
received and already-cancelled orders; otherwise stamps the canceller and
sets status `CANCELLED`.  No balance, ledger or line change. -/
def cancel_purchase_order (s : EngineState) (po : PurchaseOrder)
    (cancelledBy : Nat) : Except PurError (EngineState × PurchaseOrder) :=
  if po.status = .received then .error .fullyReceivedCannotCancel
  else if po.status = .cancelled then .error .alreadyCancelled
  else .ok (s, { po with status := .cancelled, cancelledBy := some cancelledBy })

/-- `reopen_purchase_order(purchase_order)`: only cancelled orders with at
least one line and some pending quantity can be reopened; the status is
restored from the lines' receipt state and the canceller stamp cleared. -/
def reopen_purchase_order (s : EngineState) (po : PurchaseOrder) :
    Except PurError (EngineState × PurchaseOrder) :=
  if po.status ≠ .cancelled then .error .onlyCancelledCanReopen
  else if po.items = [] then .error .noLineItems
  else if po.items.any (fun i => decide (0 < pending_quantity i)) = false then
    .error .nothingPending
  else
    .ok (s, { po with
      status := if po.items.any (fun i => decide (0 < i.receivedQuantity))
                then .partlyReceived else .opened,
      cancelledBy := none })

/-- The `defaultdict(list)` accumulation `grouped[line.material.vendor_id]
.append(line)`: append to the vendor's group, creating it on first sight. -/
def addLineToGroups (groups : List (Nat × List PurchaseLineInput))
    (line : PurchaseLineInput) : List (Nat × List PurchaseLineInput) :=
  if groups.any (fun g => decide (g.1 = line.materialVendorId)) then
    groups.map (fun g =>
      if g.1 = line.materialVendorId then (g.1, g.2 ++ [line]) else g)
  else groups ++ [(line.materialVendorId, [line])]

/-- The vendor partition of the input lines, groups in first-occurrence
order, each group in input order (Python dict iteration order). -/
def groupByVendor (lines : List PurchaseLineInput) :
    List (Nat × List PurchaseLineInput) :=
  lines.foldl addLineToGroups []

/-- The `PurchaseOrderItem` rows created for one order's lines; the ids
stand for database-assigned primary keys. -/
def mkOrderItems (ls : List PurchaseLineInput) : List PurchaseOrderItem :=
  ls.enum.map (fun p =>
    { id := p.1, materialId := p.2.materialId, quantity := p.2.quantity,
      receivedQuantity := 0 })

/-- `create_grouped_purchase_orders_with_vendor(order_date, notes,
created_by, lines, vendor)`: requires a non-empty line set with positive
quantities.  With an explicit vendor (validated as supplier-capable via
`partnerIsSupplier`) all lines form one order; with no vendor the lines are
partitioned by each material's registered vendor, one `OPEN` order per
distinct vendor group.  `firstOrderId` stands for the first
database-assigned primary key. -/
def create_grouped_purchase_orders_with_vendor
    (partnerIsSupplier : Nat → Bool) (lines : List PurchaseLineInput)
    (vendor : Option Nat) (firstOrderId : Nat) :
    Except PurError (List PurchaseOrder) :=
  if lines = [] then .error .noLines
  else if lines.any (fun l => decide (l.quantity ≤ 0)) then
    .error .nonPositiveQuantity
  else
    match vendor with
    | some v =>
      if partnerIsSupplier v = false then .error .invalidVendor
      else
        .ok [{ id := firstOrderId, vendorId := v, status := .opened,
               items := mkOrderItems lines,
               receivedBy := none, cancelledBy := none }]
    | none =>
      .ok ((groupByVendor lines).enum.map (fun p =>
        { id := firstOrderId + p.1, vendorId := p.2.1, status := .opened,
          items := mkOrderItems p.2.2,
          receivedBy := none, cancelledBy := none }))

/-! ### Generic lemmas about the stock-update fold and quantization -/

theorem updStock_apply (st : Nat → ℚ) (id : Nat) (d : ℚ) (m : Nat) :
    updStock st id d m = if m = id then st m + d else st m := by
  unfold updStock setStock
  by_cases h : m = id <;> simp [h]

theorem foldl_updStock {α : Type} (key : α → Nat) (d : α → ℚ)
    (l : List α) (st : Nat → ℚ) (m : Nat) :
    (l.foldl (fun s a => updStock s (key a) (d a)) st) m
      = st m + ((l.filter (fun a => decide (key a = m))).map d).sum := by
  induction l generalizing st with
  | nil => simp
  | cons a rest ih =>
    simp only [List.foldl_cons, ih, updStock_apply, List.filter_cons]
    by_cases h : key a = m
    · subst h
      simp [add_assoc]
    · have hm : ¬ (m = key a) := fun hmm => h hmm.symm
      simp [h, hm]

theorem filter_eq_singleton_of_nodup {α : Type} (key : α → Nat)
    (l : List α) (hnd : (l.map key).Nodup) (a : α) (ha : a ∈ l) :
    l.filter (fun x => decide (key x = key a)) = [a] := by
  induction l with
  | nil => cases ha
  | cons b rest ih =>
    simp only [List.map_cons, List.nodup_cons] at hnd
    rcases List.mem_cons.mp ha with hab | harest
    · have hkb : key b = key a := by rw [hab]
      have hrest : rest.filter (fun x => decide (key x = key a)) = [] := by
        rw [List.filter_eq_nil_iff]
        intro x hx
        simp only [decide_eq_true_eq]
        intro hkey
        exact hnd.1 (List.mem_map.mpr ⟨x, hx, hkey.trans hkb.symm⟩)
      simp [List.filter_cons, hkb, hrest, hab]
    · have hne : key b ≠ key a := by
        intro h
        exact hnd.1 (List.mem_map.mpr ⟨a, harest, h.symm⟩)
      simp [List.filter_cons, hne, ih hnd.2 harest]

theorem halfEvenRound_intCast (m : ℤ) : halfEvenRound (m : ℚ) = m := by
  unfold halfEvenRound
  simp [Int.floor_intCast]

theorem halfEvenRound_close (q : ℚ) : |((halfEvenRound q : ℚ)) - q| ≤ 1/2 := by
  unfold halfEvenRound
  have h0 : (0 : ℚ) ≤ q - ⌊q⌋ := by
    have := Int.floor_le q
    linarith
  have h1 : q - ⌊q⌋ < 1 := by
    have := Int.lt_floor_add_one q
    linarith
  by_cases hlt : q - ⌊q⌋ < 1/2
  · simp only [hlt, if_true]
    rw [abs_le]
    constructor <;> linarith
  · simp only [hlt, if_false]
    by_cases hgt : 1/2 < q - ⌊q⌋
    · simp only [hgt, if_true]
      rw [abs_le]
      push_cast
      constructor <;> linarith
    · have heq : q - ⌊q⌋ = 1/2 := le_antisymm (not_lt.mp hgt) (not_lt.mp hlt)
      simp only [hgt, if_false]
      by_cases hev : ⌊q⌋ % 2 = 0
      · simp only [hev, if_true]
        rw [abs_le]
        constructor <;> linarith
      · simp only [hev, if_false]
        rw [abs_le]
        push_cast
        constructor <;> linarith

theorem quantize3_milli (k : ℤ) : quantize3 ((k : ℚ) / 1000) = (k : ℚ) / 1000 := by
  unfold quantize3
  have h : ((k : ℚ) / 1000) * 1000 = (k : ℚ) := by ring
  rw [h, halfEvenRound_intCast]

theorem quantize3_close (q : ℚ) : |quantize3 q - q| ≤ 1/2000 := by
  unfold quantize3
  have h := halfEvenRound_close (q * 1000)
  have key : (halfEvenRound (q * 1000) : ℚ) / 1000 - q
      = ((halfEvenRound (q * 1000) : ℚ) - q * 1000) / 1000 := by ring
  rw [key, abs_div]
  have habs : |(1000 : ℚ)| = 1000 := by norm_num
  rw [habs]
  linarith

/-! ### Helper lemmas for the production proofs -/

theorem filter_key_eq_nil {α : Type} (key : α → Nat) (l : List α) (m : Nat)
    (hm : m ∉ l.map key) :
    l.filter (fun x => decide (key x = m)) = [] := by
  rw [List.filter_eq_nil_iff]
  intro x hx
  simp only [decide_eq_true_eq]
  intro h
  exact hm (List.mem_map.mpr ⟨x, hx, h⟩)

theorem immediateShortages_eq_nil (s : EngineState) (bom : List BOMItem)
    (quantity : Nat)
    (hsuff : ∀ item ∈ bom, requiredQty item quantity ≤ s.stocks item.materialId) :
    immediateShortages s bom quantity = [] := by
  unfold immediateShortages
  rw [List.filterMap_eq_nil_iff]
  intro item him
  rw [if_neg (not_lt.mpr (hsuff item him))]

theorem releaseShortages_eq_nil (s : EngineState) (cs : List ConsumptionLine)
    (hsuff : ∀ c ∈ cs, c.requiredQty ≤ s.stocks c.materialId) :
    releaseShortages s cs = [] := by
  unfold releaseShortages
  rw [List.filterMap_eq_nil_iff]
  intro c hc
  rw [if_neg (not_lt.mpr (hsuff c hc))]

theorem sum_map_neg {α : Type} (l : List α) (f : α → ℚ) :
    (l.map (fun a => -(f a))).sum = -((l.map f).sum) := by
  induction l with
  | nil => simp
  | cons a rest ih =>
    simp only [List.map_cons, List.sum_cons, ih]
    ring

theorem ledgerDelta_append (a b : List LedgerEntry) (m : Nat) :
    ledgerDelta (a ++ b) m = ledgerDelta a m + ledgerDelta b m := by
  unfold ledgerDelta
  rw [List.filter_append, List.map_append, List.sum_append]

theorem ledgerDelta_map {α : Type} (l : List α) (f : α → LedgerEntry) (m : Nat) :
    ledgerDelta (l.map f) m
      = ((l.filter (fun a => decide ((f a).materialId = m))).map
          (fun a => entryDelta (f a))).sum := by
  unfold ledgerDelta
  rw [List.filter_map, List.map_map]
  rfl

/-- Success branch of `create_production_order_and_deduct_stock`
as one equation. -/
theorem create_immediate_ok_eq (s : EngineState) (bom : List BOMItem)
    (productId quantity orderId : Nat) (hbom : bom ≠ [])
    (hL : immediateShortages s bom quantity = []) :
    create_production_order_and_deduct_stock s bom productId quantity orderId
      = .ok (⟨bom.foldl
              (fun st item => updStock st item.materialId (-(requiredQty item quantity)))
              s.stocks,
            s.ledger ++ bom.map
              (fun item => prodOutEntry orderId item.materialId (requiredQty item quantity))⟩,
           { id := orderId, productId := productId, quantity := quantity,
             plannedQty := quantize3 (quantity : ℚ),
             rawMaterialReleased := true, status := .planned,
             consumptions := bom.map
               (fun item => ⟨item.materialId, requiredQty item quantity⟩) }) := by
  unfold create_production_order_and_deduct_stock
  rw [if_neg hbom, if_pos hL]

/-- Success branch of `release_raw_materials_for_production_order`
as one equation. -/
theorem release_ok_eq (s : EngineState) (order : ProductionOrder)
    (hst : order.status = .awaitingRmRelease)
    (hrel : order.rawMaterialReleased = false)
    (hcs : order.consumptions ≠ [])
    (hL : releaseShortages s order.consumptions = []) :
    release_raw_materials_for_production_order s order
      = .ok (⟨order.consumptions.foldl
              (fun st c => updStock st c.materialId (-c.requiredQty)) s.stocks,
            s.ledger ++ order.consumptions.map
              (fun c => prodOutEntry order.id c.materialId c.requiredQty)⟩,
           { order with rawMaterialReleased := true, status := .planned }) := by
  unfold release_raw_materials_for_production_order
  rw [if_neg (by simp [hst]), if_neg (by simp [hrel]), if_neg hcs, if_pos hL]

/-- Cancellation of a released, cancellable production order as one
equation: credit every consumption line back and append one `IN` row per
line. -/
theorem cancel_ok_released_eq (s : EngineState) (order : ProductionOrder)
    (hst1 : order.status ≠ .cancelled) (hst2 : order.status ≠ .completed)
    (hrel : order.rawMaterialReleased = true) :
    cancel_production_order s order
      = .ok (⟨order.consumptions.foldl
              (fun st c => updStock st c.materialId c.requiredQty) s.stocks,
            s.ledger ++ order.consumptions.map (prodRevertEntry order.id)⟩,
           { order with status := .cancelled }) := by
  unfold cancel_production_order
  rw [if_neg hst1, if_neg hst2]
  simp only [hrel, if_true]

/-- C1: for every material account and every nonzero delta, `adjust_stock`
fails with `InsufficientStock` (touching neither balance nor ledger) when
`balance + delta < 0`; otherwise it persists `balance + delta`, leaves all
other balances unchanged, and appends exactly one ledger row of quantity
`|delta|` with direction `IN` when `delta > 0` and `OUT` when `delta < 0`. -/
theorem adjust_stock_spec (s : EngineState) (materialId : Nat) (delta : ℚ)
    (hδ : delta ≠ 0) :
    (s.stocks materialId + delta < 0 →
      adjust_stock s materialId delta = .error .insufficientStock) ∧
    (0 ≤ s.stocks materialId + delta →
      ∃ s' : EngineState,
        adjust_stock s materialId delta = .ok (s', s.stocks materialId + delta) ∧
        s'.stocks materialId = s.stocks materialId + delta ∧
        (∀ m : Nat, m ≠ materialId → s'.stocks m = s.stocks m) ∧
        ∃ e : LedgerEntry,
          s'.ledger = s.ledger ++ [e] ∧
          e.materialId = materialId ∧
          e.quantity = |delta| ∧
          e.txnType = (if 0 < delta then TxnType.IN else TxnType.OUT)) := by
  constructor
  · intro hneg
    unfold adjust_stock
    simp [hδ, hneg]
  · intro hpos
    have hnotneg : ¬ (s.stocks materialId + delta < 0) := not_lt.mpr hpos
    refine ⟨⟨setStock s.stocks materialId (s.stocks materialId + delta),
      s.ledger ++ [{ materialId := materialId,
                     txnType := if 0 < delta then .IN else .OUT,
                     quantity := |delta|,
                     referenceType := "manual_adjustment",
                     referenceId := materialId }]⟩, ?_, ?_, ?_, ?_⟩
    · unfold adjust_stock
      simp [hδ, hnotneg]
    · simp [setStock]
    · intro m hm
      simp [setStock, hm]
    · exact ⟨_, rfl, rfl, rfl, rfl⟩

/-- C1 witness: a concrete account with balance 5; a delta of −7 is rejected,
a delta of 3 is applied with an `IN` ledger row of quantity 3. -/
theorem adjust_stock_spec_witness :
    ((3 : ℚ) ≠ 0) ∧
    ((fun _ => (5 : ℚ)) 1 + 3 ≥ 0) ∧
    (∃ s' : EngineState,
        adjust_stock ⟨fun _ => (5 : ℚ), []⟩ 1 3 = .ok (s', (fun _ => (5 : ℚ)) 1 + 3) ∧
        s'.stocks 1 = (fun _ => (5 : ℚ)) 1 + 3 ∧
        (∀ m : Nat, m ≠ 1 → s'.stocks m = (fun _ => (5 : ℚ)) m) ∧
        ∃ e : LedgerEntry,
          s'.ledger = [] ++ [e] ∧
          e.materialId = 1 ∧
          e.quantity = |(3 : ℚ)| ∧
          e.txnType = (if (0 : ℚ) < 3 then TxnType.IN else TxnType.OUT)) := by
  refine ⟨by norm_num, by norm_num, ?_⟩
  exact (adjust_stock_spec ⟨fun _ => (5 : ℚ), []⟩ 1 3 (by norm_num)).2 (by norm_num)

/-- C2: immediate production-order creation either fails with
`InsufficientStock` listing *every* BOM material whose balance is below its
requirement (with no order and no side effect — the error branch returns no
state), or, when every balance covers its requirement, creates the order in
`PLANNED` with `raw_material_released=true`, writes one consumption line and
one `OUT` ledger entry per BOM material and deducts each requirement from
that material's balance, leaving all other balances untouched. -/
theorem create_immediate_spec (s : EngineState) (bom : List BOMItem)
    (productId quantity orderId : Nat)
    (hbom : bom ≠ [])
    (hnd : (bom.map (fun i => i.materialId)).Nodup) :
    ((∃ item ∈ bom, s.stocks item.materialId < requiredQty item quantity) →
      ∃ L, create_production_order_and_deduct_stock s bom productId quantity orderId
          = .error (.insufficientStock L) ∧
        (∀ item ∈ bom, s.stocks item.materialId < requiredQty item quantity →
          (⟨item.materialId, requiredQty item quantity, s.stocks item.materialId⟩ : Shortage) ∈ L) ∧
        (∀ sh ∈ L, sh.available < sh.required)) ∧
    ((∀ item ∈ bom, requiredQty item quantity ≤ s.stocks item.materialId) →
      ∃ s' order,
        create_production_order_and_deduct_stock s bom productId quantity orderId
          = .ok (s', order) ∧
        order.status = .planned ∧
        order.rawMaterialReleased = true ∧
        order.consumptions
          = bom.map (fun item => ⟨item.materialId, requiredQty item quantity⟩) ∧
        s'.ledger = s.ledger ++ bom.map
          (fun item => prodOutEntry orderId item.materialId (requiredQty item quantity)) ∧
        (∀ item ∈ bom,
          s'.stocks item.materialId
            = s.stocks item.materialId - requiredQty item quantity) ∧
        (∀ m : Nat, m ∉ bom.map (fun i => i.materialId) → s'.stocks m = s.stocks m)) := by
  constructor
  · rintro ⟨item, him, hlt⟩
    have hmem : (⟨item.materialId, requiredQty item quantity, s.stocks item.materialId⟩ : Shortage)
        ∈ immediateShortages s bom quantity :=
      List.mem_filterMap.mpr ⟨item, him, by rw [if_pos hlt]⟩
    have hne : immediateShortages s bom quantity ≠ [] := List.ne_nil_of_mem hmem
    refine ⟨immediateShortages s bom quantity, ?_, ?_, ?_⟩
    · unfold create_production_order_and_deduct_stock
      rw [if_neg hbom, if_neg hne]
    · intro it hit hlt'
      exact List.mem_filterMap.mpr ⟨it, hit, by rw [if_pos hlt']⟩
    · intro sh hsh
      obtain ⟨it, hit, heq⟩ := List.mem_filterMap.mp hsh
      by_cases h : s.stocks it.materialId < requiredQty it quantity
      · rw [if_pos h] at heq
        cases heq
        exact h
      · rw [if_neg h] at heq
        cases heq
  · intro hsuff
    have hL := immediateShortages_eq_nil s bom quantity hsuff
    refine ⟨⟨bom.foldl
        (fun st item => updStock st item.materialId (-(requiredQty item quantity)))
        s.stocks,
      s.ledger ++ bom.map
        (fun item => prodOutEntry orderId item.materialId (requiredQty item quantity))⟩,
      { id := orderId, productId := productId, quantity := quantity,
        plannedQty := quantize3 (quantity : ℚ),
        rawMaterialReleased := true, status := .planned,
        consumptions := bom.map
          (fun item => ⟨item.materialId, requiredQty item quantity⟩) },
      ?_, rfl, rfl, rfl, rfl, ?_, ?_⟩
    · unfold create_production_order_and_deduct_stock
      rw [if_neg hbom, if_pos hL]
    · intro item him
      show (bom.foldl
        (fun st i => updStock st i.materialId (-(requiredQty i quantity)))
        s.stocks) item.materialId = _
      rw [foldl_updStock (fun i => i.materialId) (fun i => -(requiredQty i quantity))]
      rw [filter_eq_singleton_of_nodup (fun i => i.materialId) bom hnd item him]
      simp
      ring
    · intro m hm
      show (bom.foldl
        (fun st i => updStock st i.materialId (-(requiredQty i quantity)))
        s.stocks) m = _
      rw [foldl_updStock (fun i => i.materialId) (fun i => -(requiredQty i quantity))]
      rw [filter_key_eq_nil (fun i => i.materialId) bom m hm]
      simp

/-- C2 witness: one BOM line (material 1, 2 per unit), quantity 3 against a
balance of 10 on every material: creation succeeds, the order is `PLANNED`
with released raw material, and material 1's balance drops by 6. -/
theorem create_immediate_spec_witness :
    ∃ s' order,
      create_production_order_and_deduct_stock ⟨fun _ => (10 : ℚ), []⟩
          [⟨1, 2⟩] 5 3 77 = .ok (s', order) ∧
      order.status = .planned ∧
      order.rawMaterialReleased = true ∧
      s'.stocks 1 = (10 : ℚ) - requiredQty ⟨1, 2⟩ 3 := by
  obtain ⟨_, hok⟩ := create_immediate_spec ⟨fun _ => (10 : ℚ), []⟩ [⟨1, 2⟩] 5 3 77
    (by simp) (by simp)
  obtain ⟨s', order, h1, h2, h3, _, _, h6, _⟩ := hok (by
    intro item him
    simp only [List.mem_singleton] at him
    subst him
    show requiredQty ⟨1, 2⟩ 3 ≤ 10
    norm_num [requiredQty, quantize3, halfEvenRound])
  exact ⟨s', order, h1, h2, h3, h6 ⟨1, 2⟩ (by simp)⟩

/-- C3: the RM-request creation path leaves every material balance and the
ledger untouched (the engine state comes back unchanged), creating the order
in `AWAITING_RM_RELEASE` with `raw_material_released=false` and persisting
the consumption-line snapshots; a subsequent successful release deducts each
balance by the *stored* snapshot quantity, writes one `OUT` ledger entry per
line, flips `raw_material_released` to true and moves the order to
`PLANNED`. -/
theorem create_with_rm_request_then_release_spec (s : EngineState)
    (bom : List BOMItem) (productId quantity orderId : Nat)
    (hbom : bom ≠ []) :
    ∃ order,
      create_production_order_with_rm_request s bom productId quantity orderId
        = .ok (s, order) ∧
      order.status = .awaitingRmRelease ∧
      order.rawMaterialReleased = false ∧
      order.consumptions
        = bom.map (fun item => ⟨item.materialId, requiredQty item quantity⟩) ∧
      ((∀ c ∈ order.consumptions, c.requiredQty ≤ s.stocks c.materialId) →
        ∃ s₂ order₂,
          release_raw_materials_for_production_order s order = .ok (s₂, order₂) ∧
          ((order.consumptions.map (fun c => c.materialId)).Nodup →
            ∀ c ∈ order.consumptions,
              s₂.stocks c.materialId = s.stocks c.materialId - c.requiredQty) ∧
          (∀ m : Nat, m ∉ order.consumptions.map (fun c => c.materialId) →
            s₂.stocks m = s.stocks m) ∧
          s₂.ledger = s.ledger ++ order.consumptions.map
            (fun c => prodOutEntry order.id c.materialId c.requiredQty) ∧
          order₂.rawMaterialReleased = true ∧
          order₂.status = .planned) := by
  refine ⟨{ id := orderId, productId := productId, quantity := quantity,
            plannedQty := quantize3 (quantity : ℚ),
            rawMaterialReleased := false, status := .awaitingRmRelease,
            consumptions := bom.map
              (fun item => ⟨item.materialId, requiredQty item quantity⟩) },
    ?_, rfl, rfl, rfl, ?_⟩
  · unfold create_production_order_with_rm_request
    rw [if_neg hbom]
  · intro hsuff
    set order : ProductionOrder :=
      { id := orderId, productId := productId, quantity := quantity,
        plannedQty := quantize3 (quantity : ℚ),
        rawMaterialReleased := false, status := .awaitingRmRelease,
        consumptions := bom.map
          (fun item => ⟨item.materialId, requiredQty item quantity⟩) } with horder
    have hcs : order.consumptions ≠ [] := by
      rw [horder]
      simpa using hbom
    have heq := release_ok_eq s order rfl rfl hcs
      (releaseShortages_eq_nil s order.consumptions hsuff)
    refine ⟨_, _, heq, ?_, ?_, rfl, rfl, rfl⟩
    · intro hnd c hc
      show List.foldl (fun st x => updStock st x.materialId (-x.requiredQty))
        s.stocks order.consumptions c.materialId
        = s.stocks c.materialId - c.requiredQty
      rw [foldl_updStock (fun x : ConsumptionLine => x.materialId)
        (fun x : ConsumptionLine => -x.requiredQty)]
      rw [filter_eq_singleton_of_nodup (fun x : ConsumptionLine => x.materialId)
        order.consumptions hnd c hc]
      simp
      ring
    · intro m hm
      show List.foldl (fun st x => updStock st x.materialId (-x.requiredQty))
        s.stocks order.consumptions m = s.stocks m
      rw [foldl_updStock (fun x : ConsumptionLine => x.materialId)
        (fun x : ConsumptionLine => -x.requiredQty)]
      rw [filter_key_eq_nil (fun x : ConsumptionLine => x.materialId)
        order.consumptions m hm]
      simp

/-- C3 witness: one BOM line (material 1, 2 per unit), quantity 3, balance
10 everywhere: RM-request creation returns the state unchanged; releasing
the created order then drops material 1's balance by the snapshotted 6. -/
theorem create_with_rm_request_then_release_spec_witness :
    ∃ order s₂ order₂,
      create_production_order_with_rm_request ⟨fun _ => (10 : ℚ), []⟩
          [⟨1, 2⟩] 5 3 77 = .ok (⟨fun _ => (10 : ℚ), []⟩, order) ∧
      order.status = .awaitingRmRelease ∧
      order.rawMaterialReleased = false ∧
      release_raw_materials_for_production_order ⟨fun _ => (10 : ℚ), []⟩ order
        = .ok (s₂, order₂) ∧
      s₂.stocks 1 = (10 : ℚ) - requiredQty ⟨1, 2⟩ 3 ∧
      order₂.status = .planned := by
  obtain ⟨order, h1, h2, h3, h4, h5⟩ :=
    create_with_rm_request_then_release_spec ⟨fun _ => (10 : ℚ), []⟩ [⟨1, 2⟩] 5 3 77
      (by simp)
  obtain ⟨s₂, order₂, hrel, hded, _, _, _, hpl⟩ := h5 (by
    intro c hc
    rw [h4] at hc
    simp only [List.map_singleton, List.mem_singleton] at hc
    subst hc
    show requiredQty ⟨1, 2⟩ 3 ≤ 10
    norm_num [requiredQty, quantize3, halfEvenRound])
  refine ⟨order, s₂, order₂, h1, h2, h3, hrel, ?_, hpl⟩
  have := hded (by rw [h4]; simp) ⟨1, requiredQty ⟨1, 2⟩ 3⟩ (by rw [h4]; simp)
  simpa using this

/-- C10: `create_production_order_with_rm_request` performs no
stock-sufficiency check: with a non-empty BOM and any positive quantity it
succeeds (state untouched) and parks the order in `AWAITING_RM_RELEASE`
whatever the balances are — in particular when they are all zero; a shortage
is only detected when release is attempted, which then fails with
`InsufficientStock`. -/
theorem create_with_rm_request_no_stock_check (s : EngineState)
    (bom : List BOMItem) (productId quantity orderId : Nat)
    (hbom : bom ≠ []) (_hq : 0 < quantity) :
    ∃ order,
      create_production_order_with_rm_request s bom productId quantity orderId
        = .ok (s, order) ∧
      order.status = .awaitingRmRelease ∧
      order.rawMaterialReleased = false ∧
      order.consumptions
        = bom.map (fun item => ⟨item.materialId, requiredQty item quantity⟩) ∧
      ((∃ c ∈ order.consumptions, s.stocks c.materialId < c.requiredQty) →
        ∃ L, release_raw_materials_for_production_order s order
            = .error (.insufficientStockForRelease L) ∧ L ≠ []) := by
  refine ⟨{ id := orderId, productId := productId, quantity := quantity,
            plannedQty := quantize3 (quantity : ℚ),
            rawMaterialReleased := false, status := .awaitingRmRelease,
            consumptions := bom.map
              (fun item => ⟨item.materialId, requiredQty item quantity⟩) },
    ?_, rfl, rfl, rfl, ?_⟩
  · unfold create_production_order_with_rm_request
    rw [if_neg hbom]
  · rintro ⟨c, hc, hlt⟩
    set cs := (bom.map (fun item =>
      (⟨item.materialId, requiredQty item quantity⟩ : ConsumptionLine))) with hcs
    have hmem : (⟨c.materialId, c.requiredQty, s.stocks c.materialId⟩ : Shortage)
        ∈ releaseShortages s cs :=
      List.mem_filterMap.mpr ⟨c, hc, by rw [if_pos hlt]⟩
    have hne : releaseShortages s cs ≠ [] := List.ne_nil_of_mem hmem
    have hcsne : cs ≠ [] := by
      rw [hcs]
      simpa using hbom
    refine ⟨releaseShortages s cs, ?_, hne⟩
    unfold release_raw_materials_for_production_order
    rw [if_neg (by simp), if_neg (by simp), if_neg hcsne, if_neg hne]

/-- C10 witness: every balance zero, one BOM line needing 6: RM-request
creation still succeeds into `AWAITING_RM_RELEASE`, and the subsequent
release attempt fails with `InsufficientStock`. -/
theorem create_with_rm_request_no_stock_check_witness :
    ∃ order,
      create_production_order_with_rm_request ⟨fun _ => (0 : ℚ), []⟩
          [⟨1, 2⟩] 5 3 77 = .ok (⟨fun _ => (0 : ℚ), []⟩, order) ∧
      order.status = .awaitingRmRelease ∧
      ∃ L, release_raw_materials_for_production_order ⟨fun _ => (0 : ℚ), []⟩ order
          = .error (.insufficientStockForRelease L) ∧ L ≠ [] := by
  obtain ⟨order, h1, h2, _, h4, h5⟩ :=
    create_with_rm_request_no_stock_check ⟨fun _ => (0 : ℚ), []⟩ [⟨1, 2⟩] 5 3 77
      (by simp) (by norm_num)
  refine ⟨order, h1, h2, h5 ⟨⟨1, requiredQty ⟨1, 2⟩ 3⟩, ?_, ?_⟩⟩
  · rw [h4]
    simp
  · show (0 : ℚ) < requiredQty ⟨1, 2⟩ 3
    norm_num [requiredQty, quantize3, halfEvenRound]

/-- C4: when immediate creation succeeds, cancelling the resulting order
restores every material balance to its pre-creation value, appending one
`IN` ledger entry per consumption line whose quantity is that line's
required quantity, so the create+cancel pair has zero net ledger delta for
every material. -/
theorem create_then_cancel_roundtrip (s : EngineState) (bom : List BOMItem)
    (productId quantity orderId : Nat)
    (hbom : bom ≠ [])
    (hsuff : ∀ item ∈ bom, requiredQty item quantity ≤ s.stocks item.materialId) :
    ∃ s₁ order s₂ order₂,
      create_production_order_and_deduct_stock s bom productId quantity orderId
        = .ok (s₁, order) ∧
      cancel_production_order s₁ order = .ok (s₂, order₂) ∧
      order₂.status = .cancelled ∧
      (∀ m : Nat, s₂.stocks m = s.stocks m) ∧
      s₂.ledger = s₁.ledger ++ order.consumptions.map (prodRevertEntry order.id) ∧
      (∀ c ∈ order.consumptions,
        (prodRevertEntry order.id c).txnType = .IN ∧
        (prodRevertEntry order.id c).quantity = c.requiredQty) ∧
      (∀ m : Nat, ledgerDelta (s₂.ledger.drop s.ledger.length) m = 0) := by
  have hL := immediateShortages_eq_nil s bom quantity hsuff
  have hcreate := create_immediate_ok_eq s bom productId quantity orderId hbom hL
  set order : ProductionOrder :=
    { id := orderId, productId := productId, quantity := quantity,
      plannedQty := quantize3 (quantity : ℚ),
      rawMaterialReleased := true, status := .planned,
      consumptions := bom.map
        (fun item => ⟨item.materialId, requiredQty item quantity⟩) } with horder
  set s₁ : EngineState :=
    ⟨bom.foldl
        (fun st item => updStock st item.materialId (-(requiredQty item quantity)))
        s.stocks,
      s.ledger ++ bom.map
        (fun item => prodOutEntry orderId item.materialId (requiredQty item quantity))⟩
    with hs₁
  have hcancel := cancel_ok_released_eq s₁ order (by rw [horder]; simp)
    (by rw [horder]; simp) rfl
  refine ⟨s₁, order, _, _, hcreate, hcancel, rfl, ?_, rfl, fun c _ => ⟨rfl, rfl⟩, ?_⟩
  · intro m
    show List.foldl (fun st x => updStock st x.materialId x.requiredQty)
      s₁.stocks order.consumptions m = s.stocks m
    rw [foldl_updStock (fun x : ConsumptionLine => x.materialId)
      (fun x : ConsumptionLine => x.requiredQty)]
    have hstocks1 : s₁.stocks m
        = s.stocks m
          + ((bom.filter (fun i => decide (i.materialId = m))).map
              (fun i => -(requiredQty i quantity))).sum := by
      rw [hs₁]
      exact foldl_updStock (fun i : BOMItem => i.materialId)
        (fun i : BOMItem => -(requiredQty i quantity)) bom s.stocks m
    rw [hstocks1]
    have hfm : order.consumptions.filter (fun c => decide (c.materialId = m))
        = (bom.filter (fun i => decide (i.materialId = m))).map
            (fun item => (⟨item.materialId, requiredQty item quantity⟩ : ConsumptionLine)) := by
      rw [horder]
      simp only []
      rw [List.filter_map]
      rfl
    rw [hfm, List.map_map]
    rw [sum_map_neg (bom.filter (fun i => decide (i.materialId = m)))
      (fun i => requiredQty i quantity)]
    have hcomp : ((fun x : ConsumptionLine => x.requiredQty) ∘
        (fun item : BOMItem =>
          (⟨item.materialId, requiredQty item quantity⟩ : ConsumptionLine)))
        = fun item : BOMItem => requiredQty item quantity := rfl
    rw [hcomp]
    ring
  · intro m
    have hledger2 : (s₁.ledger ++ order.consumptions.map (prodRevertEntry order.id))
        = s.ledger ++ ((bom.map
            (fun item => prodOutEntry orderId item.materialId (requiredQty item quantity)))
          ++ order.consumptions.map (prodRevertEntry order.id)) := by
      rw [hs₁]
      rw [List.append_assoc]
    show ledgerDelta (((s₁.ledger ++ order.consumptions.map (prodRevertEntry order.id))).drop
      s.ledger.length) m = 0
    rw [hledger2, List.drop_left, ledgerDelta_append, ledgerDelta_map, ledgerDelta_map]
    have hfilter : order.consumptions.filter
        (fun c => decide ((prodRevertEntry order.id c).materialId = m))
        = (bom.filter (fun i => decide (i.materialId = m))).map
            (fun item => (⟨item.materialId, requiredQty item quantity⟩ : ConsumptionLine)) := by
      rw [horder]
      simp only []
      rw [List.filter_map]
      rfl
    have hfilter2 : bom.filter
        (fun i => decide ((prodOutEntry orderId i.materialId (requiredQty i quantity)).materialId = m))
        = bom.filter (fun i => decide (i.materialId = m)) := rfl
    rw [hfilter, hfilter2, List.map_map]
    have h1 : ((fun c : ConsumptionLine => entryDelta (prodRevertEntry order.id c)) ∘
        (fun item : BOMItem =>
          (⟨item.materialId, requiredQty item quantity⟩ : ConsumptionLine)))
        = fun item : BOMItem => requiredQty item quantity := rfl
    have h2 : (fun i : BOMItem =>
        entryDelta (prodOutEntry orderId i.materialId (requiredQty i quantity)))
        = fun i : BOMItem => -(requiredQty i quantity) := rfl
    rw [h1, h2]
    rw [sum_map_neg (bom.filter (fun i => decide (i.materialId = m)))
      (fun i => requiredQty i quantity)]
    ring

/-- C4 witness: balance 10, one BOM line needing 6: create then cancel
brings material 1 back to 10 and the two ledger rows written by the pair
cancel out. -/
theorem create_then_cancel_roundtrip_witness :
    ∃ s₁ order s₂ order₂,
      create_production_order_and_deduct_stock ⟨fun _ => (10 : ℚ), []⟩
          [⟨1, 2⟩] 5 3 77 = .ok (s₁, order) ∧
      cancel_production_order s₁ order = .ok (s₂, order₂) ∧
      order₂.status = .cancelled ∧
      s₂.stocks 1 = (10 : ℚ) ∧
      ledgerDelta (s₂.ledger.drop 0) 1 = 0 := by
  obtain ⟨s₁, order, s₂, order₂, h1, h2, h3, h4, _, _, h7⟩ :=
    create_then_cancel_roundtrip ⟨fun _ => (10 : ℚ), []⟩ [⟨1, 2⟩] 5 3 77
      (by simp) (by
        intro item him
        simp only [List.mem_singleton] at him
        subst him
        show requiredQty ⟨1, 2⟩ 3 ≤ 10
        norm_num [requiredQty, quantize3, halfEvenRound])
  exact ⟨s₁, order, s₂, order₂, h1, h2, h3, h4 1, h7 1⟩

/-! ### Helper lemmas for the purchasing proofs -/

theorem receiveStep_skip (q : List (Nat × ℚ)) (poId : Nat)
    (acc : EngineState × List PurchaseOrderItem) (i : PurchaseOrderItem)
    (h : lookupQty q i.id ≤ 0) :
    receiveStep q poId acc i = (acc.1, acc.2 ++ [i]) := by
  simp only [receiveStep]
  rw [if_pos h]

theorem receiveStep_accept (q : List (Nat × ℚ)) (poId : Nat)
    (acc : EngineState × List PurchaseOrderItem) (i : PurchaseOrderItem)
    (h : 0 < lookupQty q i.id) :
    receiveStep q poId acc i
      = (⟨updStock acc.1.stocks i.materialId (lookupQty q i.id),
          acc.1.ledger ++ [receiveInEntry q poId i]⟩,
         acc.2 ++ [updatedItem q i]) := by
  simp only [receiveStep, receiveInEntry, updatedItem]
  rw [if_neg (not_le.mpr h), if_pos h]

theorem acceptedItems_cons_skip (q : List (Nat × ℚ)) (i : PurchaseOrderItem)
    (rest : List PurchaseOrderItem) (h : lookupQty q i.id ≤ 0) :
    acceptedItems q (i :: rest) = acceptedItems q rest := by
  unfold acceptedItems
  rw [List.filter_cons]
  simp [not_lt.mpr h]

theorem acceptedItems_cons_accept (q : List (Nat × ℚ)) (i : PurchaseOrderItem)
    (rest : List PurchaseOrderItem) (h : 0 < lookupQty q i.id) :
    acceptedItems q (i :: rest) = i :: acceptedItems q rest := by
  unfold acceptedItems
  rw [List.filter_cons]
  simp [h]

theorem receive_foldl_snd (q : List (Nat × ℚ)) (poId : Nat)
    (items : List PurchaseOrderItem) (s : EngineState)
    (acc : List PurchaseOrderItem) :
    (items.foldl (receiveStep q poId) (s, acc)).2
      = acc ++ items.map (updatedItem q) := by
  induction items generalizing s acc with
  | nil => simp
  | cons i rest ih =>
    simp only [List.foldl_cons, List.map_cons]
    rcases le_or_lt (lookupQty q i.id) 0 with h | h
    · rw [receiveStep_skip q poId (s, acc) i h, ih]
      have hupd : updatedItem q i = i := by
        unfold updatedItem
        rw [if_neg (not_lt.mpr h)]
      rw [hupd]
      simp
    · rw [receiveStep_accept q poId (s, acc) i h, ih]
      simp

theorem receive_foldl_ledger (q : List (Nat × ℚ)) (poId : Nat)
    (items : List PurchaseOrderItem) (s : EngineState)
    (acc : List PurchaseOrderItem) :
    (items.foldl (receiveStep q poId) (s, acc)).1.ledger
      = s.ledger ++ (acceptedItems q items).map (receiveInEntry q poId) := by
  induction items generalizing s acc with
  | nil => simp [acceptedItems]
  | cons i rest ih =>
    simp only [List.foldl_cons]
    rcases le_or_lt (lookupQty q i.id) 0 with h | h
    · rw [receiveStep_skip q poId (s, acc) i h, ih,
        acceptedItems_cons_skip q i rest h]
    · rw [receiveStep_accept q poId (s, acc) i h, ih,
        acceptedItems_cons_accept q i rest h]
      simp

theorem receive_foldl_stocks (q : List (Nat × ℚ)) (poId : Nat)
    (items : List PurchaseOrderItem) (s : EngineState)
    (acc : List PurchaseOrderItem) (m : Nat) :
    (items.foldl (receiveStep q poId) (s, acc)).1.stocks m
      = s.stocks m
        + (((acceptedItems q items).filter
            (fun i => decide (i.materialId = m))).map
            (fun i => lookupQty q i.id)).sum := by
  induction items generalizing s acc with
  | nil => simp [acceptedItems]
  | cons i rest ih =>
    simp only [List.foldl_cons]
    rcases le_or_lt (lookupQty q i.id) 0 with h | h
    · rw [receiveStep_skip q poId (s, acc) i h, ih,
        acceptedItems_cons_skip q i rest h]
    · rw [receiveStep_accept q poId (s, acc) i h, ih,
        acceptedItems_cons_accept q i rest h]
      show updStock s.stocks i.materialId (lookupQty q i.id) m + _ = _
      rw [updStock_apply, List.filter_cons]
      by_cases hm : i.materialId = m
      · subst hm
        have hd : (decide (i.materialId = i.materialId)) = true := by simp
        rw [if_pos rfl, hd, if_pos rfl, List.map_cons, List.sum_cons]
        ring
      · have h1 : (decide (i.materialId = m)) = false := by simp [hm]
        have h2 : ¬ (m = i.materialId) := fun hmm => hm hmm.symm
        rw [if_neg h2, h1]
        simp

theorem lookupQty_nonneg (lq : List (Nat × ℚ)) (hpos : ∀ p ∈ lq, 0 < p.2)
    (x : Nat) : 0 ≤ lookupQty lq x := by
  unfold lookupQty
  cases hfind : lq.find? (fun p => decide (p.1 = x)) with
  | none => simp
  | some p => exact le_of_lt (hpos p (List.mem_of_find?_eq_some hfind))

theorem find?_eq_of_nodup {α : Type} (key : α → Nat) (l : List α)
    (hnd : (l.map key).Nodup) (a : α) (ha : a ∈ l) :
    l.find? (fun x => decide (key x = key a)) = some a := by
  induction l with
  | nil => cases ha
  | cons b rest ih =>
    simp only [List.map_cons, List.nodup_cons] at hnd
    rcases List.mem_cons.mp ha with hab | harest
    · rw [List.find?_cons_of_pos _ (by simp [hab])]
      rw [hab]
    · have hne : key b ≠ key a := fun h =>
        hnd.1 (List.mem_map.mpr ⟨a, harest, h.symm⟩)
      rw [List.find?_cons_of_neg _ (by simp [hne])]
      exact ih hnd.2 harest

/-- C6: a successful receive call credits each accepted line's material
balance by the received amount, increments the line's `received_quantity`
by it, writes one `IN` ledger entry per accepted line, recomputes the order
status from the updated lines via `_derive_status` (`RECEIVED` when every
line is fully received, else `PARTIALLY_RECEIVED` when anything was ever
received, else `OPEN`) and stamps the receiver exactly on reaching
`RECEIVED` — both for an explicitly given quantity map and for the
omitted-map shortcut, which receives every line's full pending quantity. -/
theorem receive_success_spec (s : EngineState) (po : PurchaseOrder)
    (receivedBy : Nat)
    (hst : po.status = .opened ∨ po.status = .partlyReceived)
    (hitems : po.items ≠ []) :
    (∀ lq : List (Nat × ℚ), lq ≠ [] →
      (∀ p ∈ lq, 0 < p.2) →
      (∀ p ∈ lq, p.1 ∈ po.items.map (fun i => i.id)) →
      (∀ p ∈ lq, ∀ item,
        po.items.find? (fun i => decide (i.id = p.1)) = some item →
        p.2 ≤ pending_quantity item) →
      ∃ s' po',
        receive_purchase_order s po receivedBy lq = .ok (s', po') ∧
        po'.items = po.items.map (updatedItem lq) ∧
        (∀ i ∈ po.items, 0 < lookupQty lq i.id →
          updatedItem lq i
            = { i with receivedQuantity := i.receivedQuantity + lookupQty lq i.id }) ∧
        s'.ledger = s.ledger
          ++ (acceptedItems lq po.items).map (receiveInEntry lq po.id) ∧
        ((po.items.map (fun i => i.materialId)).Nodup →
          ∀ i ∈ po.items,
            s'.stocks i.materialId = s.stocks i.materialId + lookupQty lq i.id) ∧
        (∀ m : Nat, m ∉ po.items.map (fun i => i.materialId) →
          s'.stocks m = s.stocks m) ∧
        po'.status = _derive_status po'.items ∧
        (po'.status = .received → po'.receivedBy = some receivedBy) ∧
        (po'.status ≠ .received → po'.receivedBy = po.receivedBy)) ∧
    ((po.items.map (fun i => i.id)).Nodup →
      (∃ i ∈ po.items, 0 < pending_quantity i) →
      ∃ s' po',
        receive_purchase_order s po receivedBy [] = .ok (s', po') ∧
        po'.items = po.items.map (updatedItem (pendingMap po)) ∧
        s'.ledger = s.ledger
          ++ (acceptedItems (pendingMap po) po.items).map
              (receiveInEntry (pendingMap po) po.id) ∧
        ((po.items.map (fun i => i.materialId)).Nodup →
          ∀ i ∈ po.items,
            s'.stocks i.materialId
              = s.stocks i.materialId + lookupQty (pendingMap po) i.id) ∧
        po'.status = _derive_status po'.items ∧
        (po'.status = .received → po'.receivedBy = some receivedBy)) := by
  have hc1 : po.status ≠ .cancelled := by
    rcases hst with h | h <;> simp [h]
  have hc2 : po.status ≠ .received := by
    rcases hst with h | h <;> simp [h]
  constructor
  · intro lq hlq hpos hknown hpend
    have hfilt : lq.filter (fun p => decide (0 < p.2)) = lq :=
      List.filter_eq_self.mpr (fun p hp => by simp [hpos p hp])
    have hfne : lq.filter (fun p => decide (0 < p.2)) ≠ [] := by
      rw [hfilt]; exact hlq
    have hunk : (lq.any (fun p => decide (p.1 ∉ po.items.map (fun i => i.id)))) = false := by
      rw [List.any_eq_false]
      intro p hp
      simp [hknown p hp]
    have hpendB : (lq.any (fun p =>
        match po.items.find? (fun i => decide (i.id = p.1)) with
        | some item => decide (pending_quantity item < p.2)
        | none => false)) = false := by
      rw [List.any_eq_false]
      intro p hp
      cases hfind : po.items.find? (fun i => decide (i.id = p.1)) with
      | none => simp [hfind]
      | some item => simp [hfind, not_lt.mpr (hpend p hp item hfind)]
    refine ⟨(po.items.foldl (receiveStep lq po.id) (s, [])).1,
      { po with
        items := (po.items.foldl (receiveStep lq po.id) (s, [])).2,
        status := _derive_status (po.items.foldl (receiveStep lq po.id) (s, [])).2,
        receivedBy :=
          if _derive_status (po.items.foldl (receiveStep lq po.id) (s, [])).2
              = .received
          then some receivedBy else po.receivedBy },
      ?_, ?_, ?_, ?_, ?_, ?_, rfl, ?_, ?_⟩
    · unfold receive_purchase_order
      rw [if_neg hc1, if_neg hc2, if_neg hitems, if_neg hlq, if_neg hfne, hfilt]
      unfold continueReceive
      rw [if_neg (by intro hcontra; rw [hunk] at hcontra; simp at hcontra),
        if_neg (by intro hcontra; rw [hpendB] at hcontra; simp at hcontra)]
    · show (po.items.foldl (receiveStep lq po.id) (s, [])).2 = _
      rw [receive_foldl_snd]
      simp
    · intro i _ hacc
      unfold updatedItem
      rw [if_pos hacc]
    · rw [receive_foldl_ledger]
    · intro hnd i hi
      rw [receive_foldl_stocks]
      have hsplit : (acceptedItems lq po.items).filter
          (fun x => decide (x.materialId = i.materialId))
          = (po.items.filter (fun x => decide (x.materialId = i.materialId))).filter
              (fun x => decide (0 < lookupQty lq x.id)) := by
        unfold acceptedItems
        rw [List.filter_filter, List.filter_filter]
        apply List.filter_congr
        intro x _
        rw [Bool.and_comm]
      rw [hsplit,
        filter_eq_singleton_of_nodup (fun x : PurchaseOrderItem => x.materialId)
          po.items hnd i hi]
      by_cases hacc : 0 < lookupQty lq i.id
      · simp [hacc]
      · have h0 : lookupQty lq i.id = 0 :=
          le_antisymm (not_lt.mp hacc) (lookupQty_nonneg lq hpos i.id)
        simp [hacc, h0]
    · intro m hm
      rw [receive_foldl_stocks]
      have hnil : (acceptedItems lq po.items).filter
          (fun x => decide (x.materialId = m)) = [] := by
        apply filter_key_eq_nil (fun x : PurchaseOrderItem => x.materialId)
        intro hmem
        apply hm
        obtain ⟨x, hx, hxm⟩ := List.mem_map.mp hmem
        have hx' : x ∈ po.items := by
          unfold acceptedItems at hx
          exact (List.mem_filter.mp hx).1
        exact List.mem_map.mpr ⟨x, hx', hxm⟩
      rw [hnil]
      simp
    · intro h
      show (if _derive_status (po.items.foldl (receiveStep lq po.id) (s, [])).2
          = PurStatus.received then some receivedBy else po.receivedBy) = _
      rw [if_pos h]
    · intro h
      show (if _derive_status (po.items.foldl (receiveStep lq po.id) (s, [])).2
          = PurStatus.received then some receivedBy else po.receivedBy) = _
      rw [if_neg h]
  · rintro hidnd ⟨i0, hi0, hp0⟩
    have hposq : ∀ p ∈ pendingMap po, 0 < p.2 := by
      intro p hp
      obtain ⟨i, hi, hpi⟩ := List.mem_map.mp hp
      have := (List.mem_filter.mp hi).2
      rw [← hpi]
      simpa using this
    have hpmne : pendingMap po ≠ [] := by
      apply List.ne_nil_of_mem (a := (i0.id, pending_quantity i0))
      apply List.mem_map.mpr
      exact ⟨i0, List.mem_filter.mpr ⟨hi0, by simp [hp0]⟩, rfl⟩
    have hunk : ((pendingMap po).any
        (fun p => decide (p.1 ∉ po.items.map (fun i => i.id)))) = false := by
      rw [List.any_eq_false]
      intro p hp
      obtain ⟨i, hi, hpi⟩ := List.mem_map.mp hp
      have hi' : i ∈ po.items := (List.mem_filter.mp hi).1
      have : p.1 ∈ po.items.map (fun i => i.id) := by
        rw [← hpi]
        exact List.mem_map.mpr ⟨i, hi', rfl⟩
      simp [this]
    have hpendB : ((pendingMap po).any (fun p =>
        match po.items.find? (fun i => decide (i.id = p.1)) with
        | some item => decide (pending_quantity item < p.2)
        | none => false)) = false := by
      rw [List.any_eq_false]
      intro p hp
      obtain ⟨i, hi, hpi⟩ := List.mem_map.mp hp
      have hi' : i ∈ po.items := (List.mem_filter.mp hi).1
      have hfind : po.items.find? (fun x => decide (x.id = p.1)) = some i := by
        rw [← hpi]
        exact find?_eq_of_nodup (fun x => x.id) po.items hidnd i hi'
      have hp2 : p.2 = pending_quantity i := by rw [← hpi]
      rw [hfind]
      simp [hp2]
    refine ⟨(po.items.foldl (receiveStep (pendingMap po) po.id) (s, [])).1,
      { po with
        items := (po.items.foldl (receiveStep (pendingMap po) po.id) (s, [])).2,
        status := _derive_status
          (po.items.foldl (receiveStep (pendingMap po) po.id) (s, [])).2,
        receivedBy :=
          if _derive_status
              (po.items.foldl (receiveStep (pendingMap po) po.id) (s, [])).2
              = .received
          then some receivedBy else po.receivedBy },
      ?_, ?_, ?_, ?_, rfl, ?_⟩
    · unfold receive_purchase_order
      rw [if_neg hc1, if_neg hc2, if_neg hitems, if_pos rfl, if_neg hpmne]
      unfold continueReceive
      rw [if_neg (by intro hcontra; rw [hunk] at hcontra; simp at hcontra),
        if_neg (by intro hcontra; rw [hpendB] at hcontra; simp at hcontra)]
    · show (po.items.foldl (receiveStep (pendingMap po) po.id) (s, [])).2 = _
      rw [receive_foldl_snd]
      simp
    · rw [receive_foldl_ledger]
    · intro hnd i hi
      rw [receive_foldl_stocks]
      have hsplit : (acceptedItems (pendingMap po) po.items).filter
          (fun x => decide (x.materialId = i.materialId))
          = (po.items.filter (fun x => decide (x.materialId = i.materialId))).filter
              (fun x => decide (0 < lookupQty (pendingMap po) x.id)) := by
        unfold acceptedItems
        rw [List.filter_filter, List.filter_filter]
        apply List.filter_congr
        intro x _
        rw [Bool.and_comm]
      rw [hsplit,
        filter_eq_singleton_of_nodup (fun x : PurchaseOrderItem => x.materialId)
          po.items hnd i hi]
      by_cases hacc : 0 < lookupQty (pendingMap po) i.id
      · simp [hacc]
      · have h0 : lookupQty (pendingMap po) i.id = 0 :=
          le_antisymm (not_lt.mp hacc) (lookupQty_nonneg (pendingMap po) hposq i.id)
        simp [hacc, h0]
    · intro h
      show (if _derive_status
          (po.items.foldl (receiveStep (pendingMap po) po.id) (s, [])).2
          = PurStatus.received then some receivedBy else po.receivedBy) = _
      rw [if_pos h]

/-- C6 witness: one line ordered 10; receiving 4 moves the order to
`PARTIALLY_RECEIVED` with `received_qty` 4, then receiving 6 yields
`received_qty` 10, status `RECEIVED`, a stamped receiver, and a material
balance credited from 0 to 10. -/
theorem receive_success_spec_witness :
    ∃ s₁ po₁ s₂ po₂,
      receive_purchase_order ⟨fun _ => (0 : ℚ), []⟩
          ⟨5, 3, .opened, [⟨1, 2, 10, 0⟩], none, none⟩ 7 [(1, 4)]
        = .ok (s₁, po₁) ∧
      po₁.items = [⟨1, 2, 10, 4⟩] ∧
      po₁.status = .partlyReceived ∧
      s₁.stocks 2 = 4 ∧
      receive_purchase_order s₁ po₁ 7 [(1, 6)] = .ok (s₂, po₂) ∧
      po₂.items = [⟨1, 2, 10, 10⟩] ∧
      po₂.status = .received ∧
      po₂.receivedBy = some 7 ∧
      s₂.stocks 2 = 10 := by
  obtain ⟨s₁, po₁, hok1, hitems1, _, _, hstk1, _, hstat1, _, _⟩ :=
    (receive_success_spec ⟨fun _ => (0 : ℚ), []⟩
      ⟨5, 3, .opened, [⟨1, 2, 10, 0⟩], none, none⟩ 7
      (Or.inl rfl) (by simp)).1 [(1, 4)] (by simp) (by decide)
      (by decide)
      (by
        intro p hp item hfind
        simp only [List.mem_singleton] at hp
        subst hp
        have hi : item = ⟨1, 2, 10, 0⟩ := by
          have : (([⟨1, 2, 10, 0⟩] : List PurchaseOrderItem).find?
              (fun i => decide (i.id = 1))) = some ⟨1, 2, 10, 0⟩ := by decide
          rw [this] at hfind
          exact (Option.some.inj hfind).symm
        subst hi
        show (4 : ℚ) ≤ pending_quantity ⟨1, 2, 10, 0⟩
        norm_num [pending_quantity])
  have hitems1' : po₁.items = [⟨1, 2, 10, 4⟩] := by
    rw [hitems1]
    norm_num [updatedItem, lookupQty, List.find?_cons]
  have hstat1' : po₁.status = .partlyReceived := by
    rw [hstat1, hitems1']
    decide
  have hstk1' : s₁.stocks 2 = 4 := by
    have := hstk1 (by decide) ⟨1, 2, 10, 0⟩ (by decide)
    have hlk : lookupQty [(1, 4)] 1 = 4 := by decide
    simpa [hlk] using this
  obtain ⟨s₂, po₂, hok2, hitems2, _, _, hstk2, _, hstat2, hrecv2, _⟩ :=
    (receive_success_spec s₁ po₁ 7
      (Or.inr hstat1') (by rw [hitems1']; simp)).1 [(1, 6)] (by simp) (by decide)
      (by
        intro p hp
        simp only [List.mem_singleton] at hp
        subst hp
        rw [hitems1']
        decide)
      (by
        intro p hp item hfind
        simp only [List.mem_singleton] at hp
        subst hp
        rw [hitems1'] at hfind
        have hi : item = ⟨1, 2, 10, 4⟩ := by
          have : (([⟨1, 2, 10, 4⟩] : List PurchaseOrderItem).find?
              (fun i => decide (i.id = 1))) = some ⟨1, 2, 10, 4⟩ := by decide
          rw [this] at hfind
          exact (Option.some.inj hfind).symm
        subst hi
        show (6 : ℚ) ≤ pending_quantity ⟨1, 2, 10, 4⟩
        norm_num [pending_quantity])
  have hitems2' : po₂.items = [⟨1, 2, 10, 10⟩] := by
    rw [hitems2, hitems1']
    norm_num [updatedItem, lookupQty, List.find?_cons]
  have hstat2' : po₂.status = .received := by
    rw [hstat2, hitems2']
    decide
  have hstk2' : s₂.stocks 2 = 10 := by
    have := hstk2 (by rw [hitems1']; decide) ⟨1, 2, 10, 4⟩ (by rw [hitems1']; decide)
    have hlk : lookupQty [(1, 6)] 1 = 6 := by decide
    rw [hlk, hstk1'] at this
    norm_num at this
    exact this
  exact ⟨s₁, po₁, s₂, po₂, hok1, hitems1', hstat1', hstk1', hok2, hitems2',
    hstat2', hrecv2 hstat2', hstk2'⟩

/-- C5 counterexample: an explicitly given `line_quantities` map containing
the non-positive entry `(2, 0)` alongside the valid entry `(1, 4)` does
*not* fail with `InvalidQuantity` — the source silently filters
non-positive entries out and the call succeeds. -/
theorem receive_nonpositive_entry_not_rejected :
    (receive_purchase_order ⟨fun _ => (0 : ℚ), []⟩
        ⟨9, 3, .opened, [⟨1, 10, 10, 0⟩, ⟨2, 20, 10, 0⟩], none, none⟩ 7
        [(1, 4), (2, 0)]).isOk = true := by
  norm_num [receive_purchase_order, continueReceive, receiveStep, lookupQty,
    pending_quantity, _derive_status, List.filter_cons, List.find?_cons,
    List.any_cons, List.foldl_cons, Except.isOk]
  decide

/-- C5 (amended): non-positive entries of a given `line_quantities` map are
discarded rather than rejected; the call fails with `NothingToReceive` when
no positive entry remains, with `InvalidItem` when a positive entry names an
unknown line, and with `InvalidQuantity` when a positive entry exceeds its
line's current pending quantity; every such failure returns an error, so no
balance, line, ledger or status change occurs. -/
theorem receive_validation_spec (s : EngineState) (po : PurchaseOrder)
    (receivedBy : Nat) (lq : List (Nat × ℚ))
    (hst : po.status = .opened ∨ po.status = .partlyReceived)
    (hitems : po.items ≠ [])
    (hlq : lq ≠ []) :
    (lq.filter (fun p => decide (0 < p.2)) = [] →
      receive_purchase_order s po receivedBy lq = .error .nothingToReceive) ∧
    ((∃ p ∈ lq, 0 < p.2 ∧ p.1 ∉ po.items.map (fun i => i.id)) →
      receive_purchase_order s po receivedBy lq = .error .invalidItem) ∧
    ((∀ p ∈ lq, 0 < p.2 → p.1 ∈ po.items.map (fun i => i.id)) →
      (∃ p ∈ lq, 0 < p.2 ∧ ∃ item,
        po.items.find? (fun i => decide (i.id = p.1)) = some item ∧
        pending_quantity item < p.2) →
      receive_purchase_order s po receivedBy lq = .error .invalidQuantity) := by
  have hc1 : po.status ≠ .cancelled := by
    rcases hst with h | h <;> simp [h]
  have hc2 : po.status ≠ .received := by
    rcases hst with h | h <;> simp [h]
  refine ⟨?_, ?_, ?_⟩
  · intro hempty
    unfold receive_purchase_order
    rw [if_neg hc1, if_neg hc2, if_neg hitems, if_neg hlq, if_pos hempty]
  · rintro ⟨p, hp, hppos, hpunk⟩
    have hmemf : p ∈ lq.filter (fun p => decide (0 < p.2)) :=
      List.mem_filter.mpr ⟨hp, by simp [hppos]⟩
    have hfne : lq.filter (fun p => decide (0 < p.2)) ≠ [] :=
      List.ne_nil_of_mem hmemf
    unfold receive_purchase_order
    rw [if_neg hc1, if_neg hc2, if_neg hitems, if_neg hlq, if_neg hfne]
    unfold continueReceive
    rw [if_pos (List.any_eq_true.mpr ⟨p, hmemf, by simp [hpunk]⟩)]
  · rintro hknown ⟨p, hp, hppos, item, hfind, hpend⟩
    have hmemf : p ∈ lq.filter (fun p => decide (0 < p.2)) :=
      List.mem_filter.mpr ⟨hp, by simp [hppos]⟩
    have hfne : lq.filter (fun p => decide (0 < p.2)) ≠ [] :=
      List.ne_nil_of_mem hmemf
    have hunk : ((lq.filter (fun p => decide (0 < p.2))).any
        (fun p => decide (p.1 ∉ po.items.map (fun i => i.id)))) = false := by
      rw [List.any_eq_false]
      intro q hq
      have hq' := List.mem_filter.mp hq
      have : 0 < q.2 := by simpa using hq'.2
      simp [hknown q hq'.1 this]
    unfold receive_purchase_order
    rw [if_neg hc1, if_neg hc2, if_neg hitems, if_neg hlq, if_neg hfne]
    unfold continueReceive
    rw [if_neg (by intro hcontra; rw [hunk] at hcontra; simp at hcontra),
      if_pos (List.any_eq_true.mpr ⟨p, hmemf, by rw [hfind]; simp [hpend]⟩)]

/-- C5 witness (for the amended claim): a line with ordered 10 and already
received 4 has pending 6; an explicit receive of 7 fails with
`InvalidQuantity` and changes nothing. -/
theorem receive_validation_spec_witness :
    receive_purchase_order ⟨fun _ => (0 : ℚ), []⟩
        ⟨9, 3, .partlyReceived, [⟨1, 10, 10, 4⟩], none, none⟩ 7 [(1, 7)]
      = .error .invalidQuantity := by
  have h := (receive_validation_spec ⟨fun _ => (0 : ℚ), []⟩
      ⟨9, 3, .partlyReceived, [⟨1, 10, 10, 4⟩], none, none⟩ 7 [(1, 7)]
      (Or.inr rfl) (by simp) (by simp)).2.2
  apply h
  · intro p hp _
    simp only [List.mem_singleton] at hp
    subst hp
    decide
  · refine ⟨(1, 7), by simp, by norm_num, ⟨1, 10, 10, 4⟩, by decide, ?_⟩
    norm_num [pending_quantity]

/-- C7: purchase-order cancel succeeds exactly from `OPEN` or
`PARTIALLY_RECEIVED` (erroring from `RECEIVED` and from `CANCELLED`),
stamping the canceller while leaving state, lines and receipts untouched;
reopen succeeds only from `CANCELLED`, fails with `NothingPending` when no
line has pending quantity, and otherwise restores `PARTIALLY_RECEIVED` when
any line has prior receipts (else `OPEN`) and clears the canceller stamp,
again changing no line and no balance. -/
theorem cancel_reopen_spec (s : EngineState) (po : PurchaseOrder)
    (actor : Nat) (hitems : po.items ≠ []) :
    (po.status = .received →
      cancel_purchase_order s po actor = .error .fullyReceivedCannotCancel) ∧
    (po.status = .cancelled →
      cancel_purchase_order s po actor = .error .alreadyCancelled) ∧
    ((po.status = .opened ∨ po.status = .partlyReceived) →
      cancel_purchase_order s po actor
        = .ok (s, { po with status := .cancelled, cancelledBy := some actor })) ∧
    (po.status ≠ .cancelled →
      reopen_purchase_order s po = .error .onlyCancelledCanReopen) ∧
    (po.status = .cancelled →
      ((∀ i ∈ po.items, pending_quantity i ≤ 0) →
        reopen_purchase_order s po = .error .nothingPending) ∧
      ((∃ i ∈ po.items, 0 < pending_quantity i) →
        reopen_purchase_order s po
          = .ok (s, { po with
              status := if po.items.any (fun i => decide (0 < i.receivedQuantity))
                        then .partlyReceived else .opened,
              cancelledBy := none }))) := by
  refine ⟨?_, ?_, ?_, ?_, ?_⟩
  · intro h
    unfold cancel_purchase_order
    rw [if_pos h]
  · intro h
    unfold cancel_purchase_order
    rw [if_neg (by simp [h]), if_pos h]
  · intro h
    have h1 : po.status ≠ .received := by rcases h with h | h <;> simp [h]
    have h2 : po.status ≠ .cancelled := by rcases h with h | h <;> simp [h]
    unfold cancel_purchase_order
    rw [if_neg h1, if_neg h2]
  · intro h
    unfold reopen_purchase_order
    rw [if_pos h]
  · intro h
    constructor
    · intro hall
      have hany : (po.items.any (fun i => decide (0 < pending_quantity i))) = false := by
        rw [List.any_eq_false]
        intro i hi
        simp [not_lt.mpr (hall i hi)]
      unfold reopen_purchase_order
      rw [if_neg (by simp [h]), if_neg hitems, if_pos hany]
    · rintro ⟨i, hi, hpend⟩
      have hany : (po.items.any (fun i => decide (0 < pending_quantity i))) = true :=
        List.any_eq_true.mpr ⟨i, hi, by simp [hpend]⟩
      unfold reopen_purchase_order
      rw [if_neg (by simp [h]), if_neg hitems,
        if_neg (by rw [hany]; simp)]

/-- C7 witness: a partially received order (4 of 10) is cancelled (stamping
the canceller, receipts intact), then reopened back to exactly
`PARTIALLY_RECEIVED` with the canceller stamp cleared. -/
theorem cancel_reopen_spec_witness :
    cancel_purchase_order ⟨fun _ => (0 : ℚ), []⟩
        ⟨9, 3, .partlyReceived, [⟨1, 10, 10, 4⟩], none, none⟩ 7
      = .ok (⟨fun _ => (0 : ℚ), []⟩,
          ⟨9, 3, .cancelled, [⟨1, 10, 10, 4⟩], none, some 7⟩) ∧
    reopen_purchase_order ⟨fun _ => (0 : ℚ), []⟩
        ⟨9, 3, .cancelled, [⟨1, 10, 10, 4⟩], none, some 7⟩
      = .ok (⟨fun _ => (0 : ℚ), []⟩,
          ⟨9, 3, .partlyReceived, [⟨1, 10, 10, 4⟩], none, none⟩) := by
  constructor
  · exact (cancel_reopen_spec ⟨fun _ => (0 : ℚ), []⟩
      ⟨9, 3, .partlyReceived, [⟨1, 10, 10, 4⟩], none, none⟩ 7
      (by simp)).2.2.1 (Or.inr rfl)
  · have h := ((cancel_reopen_spec ⟨fun _ => (0 : ℚ), []⟩
      ⟨9, 3, .cancelled, [⟨1, 10, 10, 4⟩], none, some 7⟩ 7
      (by simp)).2.2.2.2 rfl).2
      ⟨⟨1, 10, 10, 4⟩, by simp, by norm_num [pending_quantity]⟩
    rw [h]
    norm_num

/-! ### Helper lemmas for the grouped-creation proof -/

theorem enumFrom_map_snd {α : Type} (n : Nat) (l : List α) :
    (l.enumFrom n).map Prod.snd = l := by
  induction l generalizing n with
  | nil => rfl
  | cons a rest ih => simp [List.enumFrom, ih]

theorem enum_map_snd {α : Type} (l : List α) : l.enum.map Prod.snd = l :=
  enumFrom_map_snd 0 l

theorem length_eq_dedup_length (l₁ l₂ : List Nat)
    (hnd : l₁.Nodup) (hmem : ∀ k, k ∈ l₁ ↔ k ∈ l₂) :
    l₁.length = l₂.dedup.length := by
  have hfin : l₁.toFinset = l₂.toFinset := by
    ext k
    simp only [List.mem_toFinset]
    exact hmem k
  calc l₁.length = l₁.toFinset.card := (List.toFinset_card_of_nodup hnd).symm
    _ = l₂.toFinset.card := by rw [hfin]
    _ = l₂.dedup.length := List.card_toFinset l₂

theorem addLine_mem_case (acc : List (Nat × List PurchaseLineInput))
    (l : PurchaseLineInput)
    (h : (acc.any (fun g => decide (g.1 = l.materialVendorId))) = true) :
    addLineToGroups acc l
      = acc.map (fun g =>
          if g.1 = l.materialVendorId then (g.1, g.2 ++ [l]) else g) := by
  unfold addLineToGroups
  rw [if_pos h]

theorem addLine_new_case (acc : List (Nat × List PurchaseLineInput))
    (l : PurchaseLineInput)
    (h : (acc.any (fun g => decide (g.1 = l.materialVendorId))) = false) :
    addLineToGroups acc l = acc ++ [(l.materialVendorId, [l])] := by
  unfold addLineToGroups
  rw [if_neg (by rw [h]; simp)]

theorem addLine_map_fst_mem (acc : List (Nat × List PurchaseLineInput))
    (l : PurchaseLineInput)
    (h : (acc.any (fun g => decide (g.1 = l.materialVendorId))) = true) :
    (addLineToGroups acc l).map Prod.fst = acc.map Prod.fst := by
  rw [addLine_mem_case acc l h, List.map_map]
  apply List.map_congr_left
  intro g _
  by_cases hg : g.1 = l.materialVendorId <;> simp [hg]

theorem foldl_addLineToGroups (lines : List PurchaseLineInput)
    (acc : List (Nat × List PurchaseLineInput)) (done : List PurchaseLineInput)
    (hnd : (acc.map Prod.fst).Nodup)
    (hval : ∀ g ∈ acc,
      g.2 = done.filter (fun l => decide (l.materialVendorId = g.1)))
    (hkeys : ∀ k, k ∈ acc.map Prod.fst
      ↔ k ∈ done.map (fun l => l.materialVendorId)) :
    ((lines.foldl addLineToGroups acc).map Prod.fst).Nodup ∧
    (∀ g ∈ lines.foldl addLineToGroups acc,
      g.2 = (done ++ lines).filter (fun l => decide (l.materialVendorId = g.1))) ∧
    (∀ k, k ∈ (lines.foldl addLineToGroups acc).map Prod.fst
      ↔ k ∈ (done ++ lines).map (fun l => l.materialVendorId)) := by
  induction lines generalizing acc done with
  | nil =>
    simp only [List.foldl_nil, List.append_nil]
    exact ⟨hnd, hval, hkeys⟩
  | cons l rest ih =>
    simp only [List.foldl_cons]
    have hstep :
        ((addLineToGroups acc l).map Prod.fst).Nodup ∧
        (∀ g ∈ addLineToGroups acc l,
          g.2 = (done ++ [l]).filter (fun x => decide (x.materialVendorId = g.1))) ∧
        (∀ k, k ∈ (addLineToGroups acc l).map Prod.fst
          ↔ k ∈ (done ++ [l]).map (fun x => x.materialVendorId)) := by
      cases hmem : (acc.any (fun g => decide (g.1 = l.materialVendorId))) with
      | true =>
        have hv : l.materialVendorId ∈ acc.map Prod.fst := by
          obtain ⟨g, hg, hgv⟩ := List.any_eq_true.mp hmem
          simp only [decide_eq_true_eq] at hgv
          exact List.mem_map.mpr ⟨g, hg, hgv⟩
        refine ⟨?_, ?_, ?_⟩
        · rw [addLine_map_fst_mem acc l hmem]
          exact hnd
        · intro g' hg'
          rw [addLine_mem_case acc l hmem] at hg'
          obtain ⟨g, hg, hgg'⟩ := List.mem_map.mp hg'
          by_cases hcase : g.1 = l.materialVendorId
          · rw [if_pos hcase] at hgg'
            subst hgg'
            rw [List.filter_append]
            have hl : ([l].filter (fun x => decide (x.materialVendorId = g.1)))
                = [l] := by
              simp [List.filter_cons, hcase.symm]
            rw [hl, ← hval g hg]
          · rw [if_neg hcase] at hgg'
            subst hgg'
            rw [List.filter_append]
            have hl : ([l].filter (fun x => decide (x.materialVendorId = g.1)))
                = [] := by
              simp [List.filter_cons]
              intro hcontra
              exact hcase hcontra.symm
            rw [hl, List.append_nil, ← hval g hg]
        · intro k
          rw [addLine_map_fst_mem acc l hmem]
          simp only [List.map_append, List.mem_append, List.map_cons,
            List.map_nil, List.mem_singleton]
          constructor
          · intro hk
            exact Or.inl ((hkeys k).mp hk)
          · rintro (hk | hk)
            · exact (hkeys k).mpr hk
            · subst hk
              exact hv
      | false =>
        have hvnot : l.materialVendorId ∉ acc.map Prod.fst := by
          intro hv
          obtain ⟨g, hg, hgv⟩ := List.mem_map.mp hv
          have := List.any_eq_false.mp hmem g hg
          simp [hgv] at this
        refine ⟨?_, ?_, ?_⟩
        · rw [addLine_new_case acc l hmem, List.map_append]
          rw [List.nodup_append]
          refine ⟨hnd, by simp, ?_⟩
          intro k hk
          simp only [List.map_cons, List.map_nil, List.mem_singleton]
          intro hkv
          subst hkv
          exact hvnot hk
        · intro g' hg'
          rw [addLine_new_case acc l hmem] at hg'
          rcases List.mem_append.mp hg' with hg | hg
          · rw [List.filter_append]
            have hg1 : g'.1 ≠ l.materialVendorId := by
              intro hcontra
              apply hvnot
              rw [← hcontra]
              exact List.mem_map.mpr ⟨g', hg, rfl⟩
            have hl : ([l].filter (fun x => decide (x.materialVendorId = g'.1)))
                = [] := by
              simp [List.filter_cons]
              intro hcontra
              exact hg1 hcontra.symm
            rw [hl, List.append_nil, ← hval g' hg]
          · simp only [List.mem_singleton] at hg
            subst hg
            rw [List.filter_append]
            have hdone : (done.filter
                (fun x => decide (x.materialVendorId = l.materialVendorId))) = [] := by
              rw [List.filter_eq_nil_iff]
              intro x hx
              simp only [decide_eq_true_eq]
              intro hxv
              apply hvnot
              rw [hkeys]
              exact List.mem_map.mpr ⟨x, hx, hxv⟩
            rw [hdone]
            simp [List.filter_cons]
        · intro k
          rw [addLine_new_case acc l hmem]
          simp only [List.map_append, List.mem_append, List.map_cons,
            List.map_nil, List.mem_singleton]
          constructor
          · rintro (hk | hk)
            · exact Or.inl ((hkeys k).mp hk)
            · exact Or.inr hk
          · rintro (hk | hk)
            · exact Or.inl ((hkeys k).mpr hk)
            · exact Or.inr hk
    have hres := ih (addLineToGroups acc l) (done ++ [l])
      hstep.1 hstep.2.1 hstep.2.2
    rw [List.append_cons]
    exact hres

theorem groupByVendor_spec (lines : List PurchaseLineInput) :
    ((groupByVendor lines).map Prod.fst).Nodup ∧
    (∀ g ∈ groupByVendor lines,
      g.2 = lines.filter (fun l => decide (l.materialVendorId = g.1))) ∧
    (∀ k, k ∈ (groupByVendor lines).map Prod.fst
      ↔ k ∈ lines.map (fun l => l.materialVendorId)) := by
  have h := foldl_addLineToGroups lines [] [] (by simp) (by simp) (by simp)
  simpa [groupByVendor] using h

theorem mkOrderItems_proj (ls : List PurchaseLineInput) :
    (mkOrderItems ls).map (fun i => (i.materialId, i.quantity))
      = ls.map (fun l => (l.materialId, l.quantity)) := by
  unfold mkOrderItems
  rw [List.map_map]
  calc ls.enum.map ((fun i : PurchaseOrderItem => (i.materialId, i.quantity)) ∘
        (fun p : Nat × PurchaseLineInput =>
          ({ id := p.1, materialId := p.2.materialId, quantity := p.2.quantity,
             receivedQuantity := 0 } : PurchaseOrderItem)))
      = (ls.enum.map Prod.snd).map (fun l => (l.materialId, l.quantity)) := by
        rw [List.map_map]
        rfl
    _ = ls.map (fun l => (l.materialId, l.quantity)) := by rw [enum_map_snd]

/-- C9: with no explicit vendor, grouped creation partitions the lines by
each material's registered vendor: exactly one order per distinct vendor
among the lines (no duplicates, no extra vendors), each order `OPEN` and
containing exactly that vendor's lines in input order. -/
theorem create_grouped_vendor_partition (pis : Nat → Bool)
    (lines : List PurchaseLineInput) (firstOrderId : Nat)
    (hne : lines ≠ [])
    (hpos : ∀ l ∈ lines, 0 < l.quantity) :
    ∃ orders,
      create_grouped_purchase_orders_with_vendor pis lines none firstOrderId
        = .ok orders ∧
      orders.length
        = ((lines.map (fun l => l.materialVendorId)).dedup).length ∧
      (orders.map (fun o => o.vendorId)).Nodup ∧
      (∀ v, (∃ o ∈ orders, o.vendorId = v)
        ↔ ∃ l ∈ lines, l.materialVendorId = v) ∧
      (∀ o ∈ orders, o.status = .opened ∧
        o.items.map (fun i => (i.materialId, i.quantity))
          = (lines.filter (fun l => decide (l.materialVendorId = o.vendorId))).map
              (fun l => (l.materialId, l.quantity))) := by
  obtain ⟨hgnd, hgval, hgkeys⟩ := groupByVendor_spec lines
  have hq : (lines.any (fun l => decide (l.quantity ≤ 0))) = false := by
    rw [List.any_eq_false]
    intro l hl
    simp [not_le.mpr (hpos l hl)]
  refine ⟨(groupByVendor lines).enum.map (fun p =>
      ({ id := firstOrderId + p.1, vendorId := p.2.1, status := .opened,
         items := mkOrderItems p.2.2,
         receivedBy := none, cancelledBy := none } : PurchaseOrder)),
    ?_, ?_, ?_, ?_, ?_⟩
  · unfold create_grouped_purchase_orders_with_vendor
    rw [if_neg hne, if_neg (by rw [hq]; simp)]
  · rw [List.length_map]
    have h1 : (groupByVendor lines).enum.length = (groupByVendor lines).length := by
      conv_rhs => rw [← enum_map_snd (groupByVendor lines)]
      rw [List.length_map]
    rw [h1, ← List.length_map (groupByVendor lines) Prod.fst]
    exact length_eq_dedup_length _ _ hgnd hgkeys
  · have hov : ((groupByVendor lines).enum.map (fun p =>
        ({ id := firstOrderId + p.1, vendorId := p.2.1, status := .opened,
           items := mkOrderItems p.2.2,
           receivedBy := none, cancelledBy := none } : PurchaseOrder))).map
          (fun o => o.vendorId)
        = (groupByVendor lines).map Prod.fst := by
      rw [List.map_map]
      calc (groupByVendor lines).enum.map _
          = ((groupByVendor lines).enum.map Prod.snd).map Prod.fst := by
            rw [List.map_map]
            rfl
        _ = (groupByVendor lines).map Prod.fst := by rw [enum_map_snd]
    rw [hov]
    exact hgnd
  · intro v
    constructor
    · rintro ⟨o, ho, hov⟩
      obtain ⟨p, hp, hpo⟩ := List.mem_map.mp ho
      have hp2 : p.2 ∈ groupByVendor lines := by
        have := List.mem_map_of_mem Prod.snd hp
        rwa [enum_map_snd] at this
      have : v ∈ (groupByVendor lines).map Prod.fst := by
        apply List.mem_map.mpr
        refine ⟨p.2, hp2, ?_⟩
        rw [← hov, ← hpo]
      have := (hgkeys v).mp this
      obtain ⟨l, hl, hlv⟩ := List.mem_map.mp this
      exact ⟨l, hl, hlv⟩
    · rintro ⟨l, hl, hlv⟩
      have hv : v ∈ (groupByVendor lines).map Prod.fst :=
        (hgkeys v).mpr (List.mem_map.mpr ⟨l, hl, hlv⟩)
      obtain ⟨g, hg, hgv⟩ := List.mem_map.mp hv
      have hge : ∃ p ∈ (groupByVendor lines).enum, p.2 = g := by
        have : g ∈ (groupByVendor lines).enum.map Prod.snd := by
          rw [enum_map_snd]
          exact hg
        obtain ⟨p, hp, hpg⟩ := List.mem_map.mp this
        exact ⟨p, hp, hpg⟩
      obtain ⟨p, hp, hpg⟩ := hge
      refine ⟨{ id := firstOrderId + p.1, vendorId := p.2.1, status := .opened,
                items := mkOrderItems p.2.2,
                receivedBy := none, cancelledBy := none },
        List.mem_map.mpr ⟨p, hp, rfl⟩, ?_⟩
      show p.2.1 = v
      rw [hpg, hgv]
  · intro o ho
    obtain ⟨p, hp, hpo⟩ := List.mem_map.mp ho
    have hp2 : p.2 ∈ groupByVendor lines := by
      have := List.mem_map_of_mem Prod.snd hp
      rwa [enum_map_snd] at this
    constructor
    · rw [← hpo]
    · rw [← hpo]
      show (mkOrderItems p.2.2).map (fun i => (i.materialId, i.quantity))
        = (lines.filter (fun l => decide (l.materialVendorId = p.2.1))).map
            (fun l => (l.materialId, l.quantity))
      rw [mkOrderItems_proj, hgval p.2 hp2]

/-- C9 witness: three lines, two for vendor 1 and one for vendor 2, with no
explicit vendor, produce exactly two orders, one per vendor. -/
theorem create_grouped_vendor_partition_witness :
    ∃ orders,
      create_grouped_purchase_orders_with_vendor (fun _ => true)
          [⟨10, 1, 5⟩, ⟨11, 2, 5⟩, ⟨12, 1, 5⟩] none 100 = .ok orders ∧
      orders.length = 2 ∧
      (∃ o ∈ orders, o.vendorId = 1) ∧
      (∃ o ∈ orders, o.vendorId = 2) := by
  obtain ⟨orders, hok, hlen, _, hiff, _⟩ :=
    create_grouped_vendor_partition (fun _ => true)
      [⟨10, 1, 5⟩, ⟨11, 2, 5⟩, ⟨12, 1, 5⟩] 100 (by simp) (by decide)
  refine ⟨orders, hok, ?_, ?_, ?_⟩
  · rw [hlen]
    decide
  · exact (hiff 1).mpr ⟨⟨10, 1, 5⟩, by simp, rfl⟩
  · exact (hiff 2).mpr ⟨⟨11, 2, 5⟩, by simp, rfl⟩

/-- C8: requirement computation fails with `NoBillOfMaterials` on an empty
BOM in both creation paths; each line's `required_qty` is
`qty_per_unit × quantity` rounded to exactly 3 decimal places
(`×1000` is an integer, error at most half a thousandth, and exact whenever
`qty_per_unit` itself has at most 3 decimals — which the schema guarantees);
and the two creation paths snapshot identical consumption quantities, the
immediate path's ledger rows carrying those same quantities. -/
theorem requirement_rounding_spec (s : EngineState) (bom : List BOMItem)
    (productId quantity orderId : Nat) :
    (bom = [] →
      create_production_order_and_deduct_stock s bom productId quantity orderId
        = .error .noBillOfMaterials ∧
      create_production_order_with_rm_request s bom productId quantity orderId
        = .error .noBillOfMaterials) ∧
    (∀ item : BOMItem,
      (requiredQty item quantity * 1000).den = 1 ∧
      |requiredQty item quantity - item.qtyPerUnit * quantity| ≤ 1/2000) ∧
    (∀ item : BOMItem, (∃ k : ℤ, item.qtyPerUnit = (k : ℚ) / 1000) →
      requiredQty item quantity = item.qtyPerUnit * quantity) ∧
    (∀ s₁ o₁ o₂,
      create_production_order_with_rm_request s bom productId quantity orderId
        = .ok (s, o₁) →
      create_production_order_and_deduct_stock s bom productId quantity orderId
        = .ok (s₁, o₂) →
      o₁.consumptions = o₂.consumptions ∧
      o₂.consumptions = bom.map
        (fun item => ⟨item.materialId, requiredQty item quantity⟩) ∧
      s₁.ledger = s.ledger ++ bom.map
        (fun item => prodOutEntry orderId item.materialId (requiredQty item quantity))) := by
  refine ⟨?_, ?_, ?_, ?_⟩
  · intro hbom
    subst hbom
    constructor
    · unfold create_production_order_and_deduct_stock
      rw [if_pos rfl]
    · unfold create_production_order_with_rm_request
      rw [if_pos rfl]
  · intro item
    constructor
    · have h : requiredQty item quantity * 1000
          = ((halfEvenRound (item.qtyPerUnit * quantity * 1000) : ℤ) : ℚ) := by
        unfold requiredQty quantize3
        rw [div_mul_cancel₀]
        norm_num
      rw [h]
      exact Rat.den_intCast _
    · exact quantize3_close (item.qtyPerUnit * quantity)
  · rintro item ⟨k, hk⟩
    have hmul : item.qtyPerUnit * (quantity : ℚ) = ((k * quantity : ℤ) : ℚ) / 1000 := by
      rw [hk]
      push_cast
      ring
    unfold requiredQty
    rw [hmul, quantize3_milli]
  · intro s₁ o₁ o₂ h1 h2
    by_cases hbom : bom = []
    · subst hbom
      unfold create_production_order_with_rm_request at h1
      rw [if_pos rfl] at h1
      cases h1
    · unfold create_production_order_with_rm_request at h1
      rw [if_neg hbom] at h1
      by_cases hL : immediateShortages s bom quantity = []
      · rw [create_immediate_ok_eq s bom productId quantity orderId hbom hL] at h2
        injection h1 with hp1
        injection h2 with hp2
        rw [Prod.mk.injEq] at hp1 hp2
        obtain ⟨-, ho₁⟩ := hp1
        obtain ⟨hs₁, ho₂⟩ := hp2
        rw [← ho₁, ← ho₂, ← hs₁]
        exact ⟨rfl, rfl, rfl⟩
      · unfold create_production_order_and_deduct_stock at h2
        rw [if_neg hbom, if_neg hL] at h2
        cases h2

/-- C8 witness: an empty BOM makes both creation paths fail with
`NoBillOfMaterials`; a 3-decimal `qty_per_unit` of 2 for quantity 3 gives
the exact requirement 6 on both paths. -/
theorem requirement_rounding_spec_witness :
    (create_production_order_and_deduct_stock ⟨fun _ => (0 : ℚ), []⟩ [] 1 3 9
        = .error .noBillOfMaterials) ∧
    (create_production_order_with_rm_request ⟨fun _ => (0 : ℚ), []⟩ [] 1 3 9
        = .error .noBillOfMaterials) ∧
    requiredQty ⟨1, 2⟩ 3 = (2 : ℚ) * 3 := by
  obtain ⟨h1, _, h3, _⟩ := requirement_rounding_spec ⟨fun _ => (0 : ℚ), []⟩ [] 1 3 9
  have he := h1 rfl
  refine ⟨he.1, he.2, ?_⟩
  have := h3 ⟨1, 2⟩ ⟨2000, by norm_num⟩
  simpa using this
